import Mathlib

/-!
Verification development for the typhoon proxy server (`src/api.py`).

The file shallowly embeds the pure data-transformation core of `api.py`:

* `parse_atcf_line` (api.py lines 135-218): per-line ATCF/TCVITALS parsing;
* the aggregation loop and track selection of `get_international_typhoon_data`
  (api.py lines 289-366), modelled on the list of bulletin lines;
* the RSS warning filter of `get_cwa_warnings` (api.py lines 94-123),
  modelled on the list of `<item>` elements of the feed.

Python library primitives used by the code (`str.strip`, `str.split`,
`int(...)`, `float(...)`, `datetime.strptime(_, '%Y%m%d%H')`,
`datetime.isoformat`, `round(_, 1)`, string comparison, `list.sort`,
substring `in`) are modelled explicitly below; each model's doc comment
names the primitive and the modelled input subset.

Machine floats of the Python code are idealised as exact rationals `ℚ`;
Python integers are `ℤ`/`ℕ`.
-/

/-- Model of the character class of Python `str.strip()` (ASCII whitespace;
the inputs in scope contain no other Unicode whitespace). -/
def isPySpace (c : Char) : Bool :=
  c == ' ' || c == '\t' || c == '\n' || c == '\r' || c == '\x0b' || c == '\x0c'

/-- Model of Python `str.strip()`: drop leading and trailing whitespace. -/
def pyStrip (s : String) : String :=
  String.mk (((s.data.dropWhile isPySpace).reverse.dropWhile isPySpace).reverse)

/-- Splitting a character list on a separator character, keeping empty pieces. -/
def splitCharList (sep : Char) : List Char → List (List Char)
  | [] => [[]]
  | c :: cs =>
    match splitCharList sep cs with
    | [] => [[c]]
    | h :: t => if c == sep then [] :: h :: t else (c :: h) :: t

/-- Model of Python `str.split(sep)` for a one-character separator:
`"".split(sep) == ['']`, empty pieces are kept. -/
def pySplit (sep : Char) (s : String) : List String :=
  (splitCharList sep s.data).map String.mk

/-- Numeric value of a digit-character list (most significant first). -/
def digitsToNat (cs : List Char) : ℕ :=
  cs.foldl (fun a c => a * 10 + (c.toNat - 48)) 0

/-- A nonempty all-digit character list, parsed to its value. -/
def parseDigits? (cs : List Char) : Option ℕ :=
  if cs ≠ [] ∧ cs.all Char.isDigit then some (digitsToNat cs) else none

/-- Strip an optional leading sign: `(isNegative, magnitude characters)`. -/
def pySignSplit : List Char → Bool × List Char
  | [] => (false, [])
  | c :: rest =>
    if c = '-' then (true, rest)
    else if c = '+' then (false, rest)
    else (false, c :: rest)

/-- Model of Python `int(str)` on the inputs in scope: optional surrounding
whitespace, optional sign, then a nonempty digit run.  (Underscore
separators and other exotic accepted forms are outside the modelled
input space.)  `none` models the `ValueError` raised by `int`. -/
def pyInt (s : String) : Option ℤ :=
  let sc := pySignSplit (pyStrip s).data
  (parseDigits? sc.2).map (fun n => if sc.1 then -(n : ℤ) else (n : ℤ))

/-- Finite decimal literal `d+`, `d+.d*` or `.d+`, returned as a scaled
pair (numerator, positive power-of-ten denominator). -/
def parseDecimalParts? (cs : List Char) : Option (ℕ × ℕ) :=
  let intPart := cs.takeWhile Char.isDigit
  let rest := cs.dropWhile Char.isDigit
  match rest with
  | [] => if intPart = [] then none else some (digitsToNat intPart, 1)
  | '.' :: frac =>
    if frac.all Char.isDigit ∧ (intPart ≠ [] ∨ frac ≠ []) then
      some (digitsToNat intPart * 10 ^ frac.length + digitsToNat frac, 10 ^ frac.length)
    else none
  | _ => none

/-- Model of Python `float(str)` on the inputs in scope: optional surrounding
whitespace, optional sign, then a finite decimal literal.  (`inf`, `nan`,
exponents and underscore separators are outside the modelled input space.)
The value is idealised as an exact rational, assembled with `Rat.divInt`
(the fraction constructor) so that it evaluates by kernel reduction.
`none` models `ValueError`. -/
def pyFloat (s : String) : Option ℚ :=
  let sc := pySignSplit (pyStrip s).data
  (parseDecimalParts? sc.2).map
    (fun p => Rat.divInt (if sc.1 then -(p.1 : ℤ) else (p.1 : ℤ)) p.2)

/-- Lexicographic strict comparison of character lists by code point,
as Python compares strings. -/
def listLexLt : List Char → List Char → Bool
  | _, [] => false
  | [], _ :: _ => true
  | a :: as, b :: bs =>
    if a.toNat < b.toNat then true
    else if b.toNat < a.toNat then false
    else listLexLt as bs

/-- Model of Python `str < str` (lexicographic by code point). -/
def pyStrLt (a b : String) : Bool := listLexLt a.data b.data

/-- Model of Python `str <= str`. -/
def pyStrLe (a b : String) : Bool := !(pyStrLt b a)

/-- Model of Python `str.endswith(c)` for a one-character suffix. -/
def pyEndsWith (s : String) (c : Char) : Bool := s.data.getLast? == some c

/-- Model of Python `str.startswith(c)` for a one-character prefix. -/
def pyStartsWith (s : String) (c : Char) : Bool := s.data.head? == some c

/-- Model of Python `s[:-1]`: drop the final character (identity on `""`). -/
def dropLastStr (s : String) : String := String.mk s.data.dropLast

/-- The `%Y` of CPython `_strptime`: exactly four digit characters. -/
def altY : List Char → Option (ℕ × List Char)
  | a :: b :: c :: d :: rest =>
    if a.isDigit ∧ b.isDigit ∧ c.isDigit ∧ d.isDigit then
      some (1000 * (a.toNat - 48) + 100 * (b.toNat - 48) + 10 * (c.toNat - 48)
        + (d.toNat - 48), rest)
    else none
  | _ => none

/-- The `%m` of CPython `_strptime`, regex `1[0-2]|0[1-9]|[1-9]`: the candidate
matches in the alternation (= backtracking) order of the regex engine. -/
def altM (cs : List Char) : List (ℕ × List Char) :=
  (match cs with
   | a :: b :: rest =>
     (if a = '1' ∧ (b = '0' ∨ b = '1' ∨ b = '2') then [(10 + (b.toNat - 48), rest)] else []) ++
     (if a = '0' ∧ b.isDigit ∧ b ≠ '0' then [(b.toNat - 48, rest)] else [])
   | _ => []) ++
  (match cs with
   | a :: rest => if a.isDigit ∧ a ≠ '0' then [(a.toNat - 48, rest)] else []
   | _ => [])

/-- The `%d` of CPython `_strptime`, regex `3[01]|[12]\d|0[1-9]|[1-9]`. -/
def altD (cs : List Char) : List (ℕ × List Char) :=
  (match cs with
   | a :: b :: rest =>
     (if a = '3' ∧ (b = '0' ∨ b = '1') then [(30 + (b.toNat - 48), rest)] else []) ++
     (if (a = '1' ∨ a = '2') ∧ b.isDigit then
        [(10 * (a.toNat - 48) + (b.toNat - 48), rest)] else []) ++
     (if a = '0' ∧ b.isDigit ∧ b ≠ '0' then [(b.toNat - 48, rest)] else [])
   | _ => []) ++
  (match cs with
   | a :: rest => if a.isDigit ∧ a ≠ '0' then [(a.toNat - 48, rest)] else []
   | _ => [])

/-- The `%H` of CPython `_strptime`, regex `2[0-3]|[0-1]\d|\d`. -/
def altH (cs : List Char) : List (ℕ × List Char) :=
  (match cs with
   | a :: b :: rest =>
     (if a = '2' ∧ (b = '0' ∨ b = '1' ∨ b = '2' ∨ b = '3') then
        [(20 + (b.toNat - 48), rest)] else []) ++
     (if (a = '0' ∨ a = '1') ∧ b.isDigit then
        [(10 * (a.toNat - 48) + (b.toNat - 48), rest)] else [])
   | _ => []) ++
  (match cs with
   | a :: rest => if a.isDigit then [(a.toNat - 48, rest)] else []
   | _ => [])

/-- The regex match of CPython `strptime(s, '%Y%m%d%H')`: the components in
sequence with left-to-right alternation and backtracking, and the whole
input must be consumed (`unconverted data remains` otherwise). -/
def strptimeYmdHChars (cs : List Char) : Option (ℕ × ℕ × ℕ × ℕ) :=
  (altY cs).bind fun yr =>
    (altM yr.2).findSome? fun mr =>
      (altD mr.2).findSome? fun dr =>
        (altH dr.2).findSome? fun hr =>
          if hr.2 = [] then some (yr.1, mr.1, dr.1, hr.1) else none

/-- Gregorian leap-year rule, as used by `datetime`. -/
def isLeapYear (y : ℕ) : Bool := decide (y % 4 = 0 ∧ (y % 100 ≠ 0 ∨ y % 400 = 0))

/-- Length of a month, as validated by the `datetime` constructor. -/
def daysInMonth (y m : ℕ) : ℕ :=
  if m = 2 then (if isLeapYear y then 29 else 28)
  else if m = 4 ∨ m = 6 ∨ m = 9 ∨ m = 11 then 30 else 31

/-- A `datetime.datetime` value as produced by `strptime` (minutes and
seconds are always zero for the `'%Y%m%d%H'` format). -/
structure PyDateTime where
  year : ℕ
  month : ℕ
  day : ℕ
  hour : ℕ
deriving DecidableEq, Repr

/-- Model of `datetime.strptime(s, '%Y%m%d%H')`: the regex match followed by
the `datetime` constructor's range validation.  `none` models `ValueError`. -/
def pyStrptimeYmdH (s : String) : Option PyDateTime :=
  (strptimeYmdHChars s.data).bind fun r =>
    if 1 ≤ r.1 ∧ 1 ≤ r.2.1 ∧ r.2.1 ≤ 12 ∧ 1 ≤ r.2.2.1 ∧
        r.2.2.1 ≤ daysInMonth r.1 r.2.1 ∧ r.2.2.2 ≤ 23 then
      some ⟨r.1, r.2.1, r.2.2.1, r.2.2.2⟩
    else none

/-- Least-significant decimal digit of `n`, as a character. -/
def digitOf (n : ℕ) : Char := Nat.digitChar (n % 10)

/-- Zero-padded two-digit rendering (`f"{n:02d}"` for `n ≤ 99`). -/
def pad2 (n : ℕ) : String := String.mk [digitOf (n / 10), digitOf n]

/-- Zero-padded four-digit rendering (`f"{n:04d}"` for `n ≤ 9999`). -/
def pad4 (n : ℕ) : String :=
  String.mk [digitOf (n / 1000), digitOf (n / 100), digitOf (n / 10), digitOf n]

/-- Model of `dt_object.isoformat() + 'Z'` for a `strptime('%Y%m%d%H')`
result (zero minutes, seconds and microseconds). -/
def isoformatZ (dt : PyDateTime) : String :=
  pad4 dt.year ++ "-" ++ pad2 dt.month ++ "-" ++ pad2 dt.day ++ "T" ++
    pad2 dt.hour ++ ":00:00Z"

/-- Round to the nearest integer, ties to even — the rounding of Python
`round` (idealised over exact rationals).  Written over the numerator and
denominator so that it evaluates by kernel reduction: `f` is the floor,
and the fractional part `(q.num - f * q.den) / q.den` is compared
with `1/2` by cross-multiplication. -/
def roundHalfEven (q : ℚ) : ℤ :=
  let f := Int.fdiv q.num q.den
  let r2 := 2 * (q.num - f * q.den)
  if r2 < q.den then f
  else if (q.den : ℤ) < r2 then f + 1
  else if f % 2 = 0 then f else f + 1

/-- The `round(max_wind_knots * 0.514444, 1)` of api.py line 190 — the
knots → m/s conversion (`round(x, 1)` is nearest-tenth, ties to even):
`k * 0.514444 * 10 = 514444 * k / 100000` exactly. -/
def knotsToMps (k : ℤ) : ℚ := Rat.divInt (roundHalfEven (Rat.divInt (514444 * k) 100000)) 10

/-- Division of a rational by `10`, in fraction-constructor form. -/
def qDivTen (v : ℚ) : ℚ := Rat.divInt v.num (v.den * 10)

/-- The compass-coordinate parsing of api.py lines 176-186:
`float(s[:-1]) / 10.0`, negated when `s` ends with the negative suffix
(`'S'` for latitude, `'W'` for longitude). -/
def parseCoordField (negSuffix : Char) (s : String) : Option ℚ :=
  match pyFloat (dropLastStr s) with
  | none => none
  | some v => some (if pyEndsWith s negSuffix then -qDivTen v else qDivTen v)

/-- The dictionary returned by `parse_atcf_line` (api.py lines 204-214). -/
structure ParsedPoint where
  time : String
  lat : ℚ
  lon : ℚ
  windSpeed_knots : ℤ
  windSpeed_ms : ℚ
  pressure_hpa : ℤ
  forecastPeriod_hours : ℤ
  typhoonName : String
  cycloneId : String
deriving DecidableEq, Repr

/-- The `parts = line.strip().split(',')` of api.py line 141. -/
def partsOf (line : String) : List String := pySplit ',' (pyStrip line)

/-- The `parts[i].strip()`: field `i` of the line, stripped (`""` when absent —
the actual accesses are all guarded by the field-count check). -/
def fieldAt (line : String) (i : ℕ) : String := pyStrip ((partsOf line).getD i "")

/-- The `parse_atcf_line` (api.py lines 135-218).  Every `ValueError` of the
Python body is absorbed by the surrounding `except` into `return None`,
so the function is modelled into `Option`.  Fields read by the source:
0 basin, 1 cyclone number, 2 timestamp, 5 forecast period, 6 latitude,
7 longitude, 8 max wind, 9 pressure, 27 name. -/
def parse_atcf_line (line : String) : Option ParsedPoint :=
  if (partsOf line).length < 28 then none
  else
    match pyStrptimeYmdH (fieldAt line 2) with
    | none => none
    | some dt =>
      match parseCoordField 'S' (fieldAt line 6) with
      | none => none
      | some lat =>
        match parseCoordField 'W' (fieldAt line 7) with
        | none => none
        | some lon =>
          match pyInt (fieldAt line 8) with
          | none => none
          | some max_wind_knots =>
            match pyInt (fieldAt line 9) with
            | none => none
            | some pressure_hpa =>
              match pyInt (fieldAt line 5) with
              | none => none
              | some forecast_period_hours =>
                some { time := isoformatZ dt
                       lat := lat
                       lon := lon
                       windSpeed_knots := max_wind_knots
                       windSpeed_ms := knotsToMps max_wind_knots
                       pressure_hpa := pressure_hpa
                       forecastPeriod_hours := forecast_period_hours
                       typhoonName :=
                         if fieldAt line 27 = "INVEST" then
                           "INVEST " ++ fieldAt line 1
                         else fieldAt line 27
                       cycloneId := fieldAt line 0 ++ fieldAt line 1 }

/-- An entry of `pastTrack` / `currentPosition` (api.py lines 317-334):
the parsed point without its `forecastPeriod_hours`, name and id fields. -/
structure TrackPoint where
  lat : ℚ
  lon : ℚ
  time : String
  windSpeed_knots : ℤ
  windSpeed_ms : ℚ
  pressure_hpa : ℤ
deriving DecidableEq, Repr

/-- An entry of `forecastTrack` (api.py lines 336-344): as `TrackPoint`,
plus the forecast period. -/
structure ForecastPoint where
  lat : ℚ
  lon : ℚ
  time : String
  windSpeed_knots : ℤ
  windSpeed_ms : ℚ
  pressure_hpa : ℤ
  forecastPeriod_hours : ℤ
deriving DecidableEq, Repr

/-- One value of `all_typhoons_parsed_data` (api.py lines 306-313). -/
structure TyphoonGroup where
  pastTrack : List TrackPoint
  forecastTrack : List ForecastPoint
  currentPosition : Option TrackPoint
  name : String
  id : String
  agency : String
deriving DecidableEq, Repr

/-- The dictionary appended to `pastTrack` (api.py lines 317-324). -/
def toTrackPoint (p : ParsedPoint) : TrackPoint :=
  { lat := p.lat, lon := p.lon, time := p.time,
    windSpeed_knots := p.windSpeed_knots, windSpeed_ms := p.windSpeed_ms,
    pressure_hpa := p.pressure_hpa }

/-- The dictionary appended to `forecastTrack` (api.py lines 336-344). -/
def toForecastPoint (p : ParsedPoint) : ForecastPoint :=
  { lat := p.lat, lon := p.lon, time := p.time,
    windSpeed_knots := p.windSpeed_knots, windSpeed_ms := p.windSpeed_ms,
    pressure_hpa := p.pressure_hpa, forecastPeriod_hours := p.forecastPeriod_hours }

/-- The fresh group created when a cyclone id is first seen
(api.py lines 305-313). -/
def freshGroup (p : ParsedPoint) : TyphoonGroup :=
  { pastTrack := [], forecastTrack := [], currentPosition := none,
    name := p.typhoonName, id := p.cycloneId, agency := "JTWC (via NCEP)" }

/-- The per-point classification (api.py lines 315-344): a zero-hour point
is appended to `pastTrack` and becomes `currentPosition`; a positive-hour
point is appended to `forecastTrack`; anything else is dropped. -/
def classifyPoint (g : TyphoonGroup) (p : ParsedPoint) : TyphoonGroup :=
  if p.forecastPeriod_hours = 0 then
    { g with pastTrack := g.pastTrack ++ [toTrackPoint p],
             currentPosition := some (toTrackPoint p) }
  else if 0 < p.forecastPeriod_hours then
    { g with forecastTrack := g.forecastTrack ++ [toForecastPoint p] }
  else g

/-- The Python dict `all_typhoons_parsed_data`, as an insertion-ordered
association list with unique keys. -/
abbrev GroupMap := List (String × TyphoonGroup)

/-- Dictionary lookup `all_typhoons_parsed_data[cyclone_id]`. -/
def lookupGroup (k : String) : GroupMap → Option TyphoonGroup
  | [] => none
  | e :: rest => if e.1 = k then some e.2 else lookupGroup k rest

/-- In-place update of the group stored at key `k`. -/
def setGroup (k : String) (g : TyphoonGroup) : GroupMap → GroupMap
  | [] => []
  | e :: rest =>
    if e.1 = k then (e.1, g) :: setGroup k g rest else e :: setGroup k g rest

/-- The part of the line skip of api.py lines 296-298:
`not line.strip() or line.strip().startswith('#')`. -/
def skipLine (line : String) : Bool :=
  pyStrip line == "" || pyStartsWith (pyStrip line) '#'

/-- The `if cyclone_id not in all_typhoons_parsed_data: ...` (api.py lines
305-313): create the fresh group on first sight of the cyclone id. -/
def ensureGroup (st : GroupMap) (p : ParsedPoint) : GroupMap :=
  match lookupGroup p.cycloneId st with
  | none => st ++ [(p.cycloneId, freshGroup p)]
  | some _ => st

/-- The in-place classification of the point into the group stored at its
cyclone id (api.py lines 315-344; the Python code mutates the dict entry,
modelled by `setGroup`). -/
def applyPoint (st : GroupMap) (p : ParsedPoint) : GroupMap :=
  match lookupGroup p.cycloneId st with
  | none => st
  | some g => setGroup p.cycloneId (classifyPoint g p) st

/-- One iteration of the line loop of `get_international_typhoon_data`
(api.py lines 295-346): skip comment/blank lines, parse, create the group
on first sight of the cyclone id, then classify the point. -/
def stepLine (st : GroupMap) (line : String) : GroupMap :=
  if skipLine line then st
  else
    match parse_atcf_line line with
    | none => st
    | some p => applyPoint (ensureGroup st p) p

/-- The whole line loop (api.py lines 295-346) over the bulletin lines. -/
def parseBulletinLines (lines : List String) : GroupMap :=
  lines.foldl stepLine []

/-- Model of Python `max(keys)` on strings: the lexicographically greatest
element, `none` on the empty collection. -/
def maxKey : List String → Option String
  | [] => none
  | k :: ks => some (ks.foldl (fun acc x => if pyStrLt acc x then x else acc) k)

/-- Model of `list.sort(key=lambda x: x["time"])` on `pastTrack`
(api.py line 356): a stable sort by the ISO time string.  Python's sort is
stable, and every stable sort of a total preorder produces the same list,
so stable insertion sort is an exact model. -/
def sortPastTrack (l : List TrackPoint) : List TrackPoint :=
  l.insertionSort (fun a b => pyStrLe a.time b.time = true)

/-- Model of `list.sort(key=lambda x: x["time"])` on `forecastTrack`
(api.py line 357): a stable sort by the ISO time string — note: by time,
not by forecast period. -/
def sortForecastTrack (l : List ForecastPoint) : List ForecastPoint :=
  l.insertionSort (fun a b => pyStrLe a.time b.time = true)

/-- The selection and post-processing step (api.py lines 350-366): pick the
greatest cyclone id, sort both tracks by time, and reset `currentPosition`
to the last element of the sorted `pastTrack` (or `None`). -/
def selectTyphoon (st : GroupMap) : Option TyphoonGroup :=
  match maxKey (st.map Prod.fst) with
  | none => none
  | some k =>
    match lookupGroup k st with
    | none => none
    | some g =>
      some { g with pastTrack := sortPastTrack g.pastTrack,
                    forecastTrack := sortForecastTrack g.forecastTrack,
                    currentPosition := (sortPastTrack g.pastTrack).getLast? }

/-- The pure core of `get_international_typhoon_data` (api.py lines
289-366) on an already-fetched bulletin text: split into lines, run the
line loop, select and normalise one typhoon.  `none` models the
"no active tropical cyclone" response of lines 367-370. -/
def get_international_typhoon_data (text : String) : Option TyphoonGroup :=
  selectTyphoon (parseBulletinLines (pySplit '\n' (pyStrip text)))

/-- One `<item>` of the RSS feed, as observed by api.py lines 103-106.
Each field models `item.find(tag)`: the outer `Option` is the element
(`none` when the sub-element is missing), the inner `Option` its
ElementTree `.text`, which is Python `None` for an element that is
present but empty (`<title/>`) and a string otherwise. -/
structure RssItem where
  title : Option (Option String)
  link : Option (Option String)
  description : Option (Option String)
  pubDate : Option (Option String)
deriving DecidableEq, Repr

/-- The Python value bound for one sub-element by api.py lines 103-106:
`item.find(tag).text if item.find(tag) is not None else ''`.  The result
`none` models Python `None` (a present element with no text), `some s` a
genuine string; only a missing element is defaulted to `''`. -/
def textOrEmpty (e : Option (Option String)) : Option String :=
  match e with
  | none => some ""
  | some t => t

/-- One retained warning dict (api.py lines 116-121): the four Python
values are stored as they are, so a field can still be Python `None`
(`none`), e.g. the description of an item whose title matched. -/
structure WarningItem where
  title : Option String
  link : Option String
  description : Option String
  pubDate : Option String
deriving DecidableEq, Repr

/-- The `keywords_to_filter` (api.py line 98). -/
def keywords_to_filter : List String :=
  ["警報", "特報", "豪(大)雨特報", "低溫特報", "濃霧特報", "強風特報", "大雷雨", "地震"]

/-- The `needle` occurs contiguously in `hay`. -/
def listIsInfix : List Char → List Char → Bool
  | [], _ => true
  | _ :: _, [] => false
  | n :: ns, c :: cs => List.isPrefixOf (n :: ns) (c :: cs) || listIsInfix (n :: ns) cs

/-- Model of Python `needle in hay` on strings: substring containment. -/
def pyInStr (needle hay : String) : Bool := listIsInfix needle.data hay.data

/-- Model of Python `needle in hay` when `hay` may be `None`: `none`
models the `TypeError` ("argument of type NoneType is not iterable")
raised on a `None` operand. -/
def pyInOpt (needle : String) (hay : Option String) : Option Bool :=
  match hay with
  | none => none
  | some s => some (pyInStr needle s)

/-- The dict built for one item from the four Python values of api.py
lines 103-106: a missing sub-element is defaulted to `""`, a
present-but-empty one yields Python `None`. -/
def itemWarning (it : RssItem) : WarningItem :=
  { title := textOrEmpty it.title, link := textOrEmpty it.link,
    description := textOrEmpty it.description, pubDate := textOrEmpty it.pubDate }

/-- The relevance test of api.py lines 109-113 on proper strings: some
keyword occurs in the title or in the description. -/
def isRelevantItem (title description : String) : Bool :=
  keywords_to_filter.any (fun k => pyInStr k title || pyInStr k description)

/-- The keyword loop of api.py lines 110-113 on the Python values:
`keyword in title or keyword in description` evaluates left to right
with short-circuit, breaking at the first hit; `none` models the
`TypeError` raised when a consulted operand is Python `None`. -/
def relevantLoop (ks : List String) (title description : Option String) : Option Bool :=
  match ks with
  | [] => some false
  | k :: rest =>
    match pyInOpt k title with
    | none => none
    | some true => some true
    | some false =>
      match pyInOpt k description with
      | none => none
      | some true => some true
      | some false => relevantLoop rest title description

/-- An item whose title and description Python values are strings, not
`None`: on such an item the keyword loop cannot raise. -/
def goodItem (it : RssItem) : Bool :=
  (itemWarning it).title.isSome && (itemWarning it).description.isSome

/-- A relevant stored dict (meaningful for items with proper strings). -/
def relevantWarning (w : WarningItem) : Bool :=
  isRelevantItem (w.title.getD "") (w.description.getD "")

/-- The item loop of `get_cwa_warnings` (api.py lines 101-121) with the
accumulated `warnings` list: a `TypeError` in the keyword check
propagates to the blanket `except` of api.py lines 131-133, which turns
the whole request into a 500 error response — the collected warnings are
discarded — modelled by `none`. -/
def warningsGo : List RssItem → List WarningItem → Option (List WarningItem)
  | [], acc => some acc
  | it :: rest, acc =>
    match relevantLoop keywords_to_filter (itemWarning it).title
        (itemWarning it).description with
    | none => none
    | some true => warningsGo rest (acc ++ [itemWarning it])
    | some false => warningsGo rest acc

/-- The item-processing part of `get_cwa_warnings` (api.py lines 101-123)
on the list of `<item>` elements of the feed: `some` the list of retained
warning dicts in feed order on success, `none` when a `TypeError` raised
by `keyword in None` aborts the request. -/
def get_cwa_warnings (items : List RssItem) : Option (List WarningItem) :=
  warningsGo items []

/-- The `pastTrack` list observed at key `k` (empty when `k` is absent). -/
def pastTrackAt (k : String) (st : GroupMap) : List TrackPoint :=
  ((lookupGroup k st).map (fun g => g.pastTrack)).getD []

/-- The `forecastTrack` list observed at key `k` (empty when `k` is absent). -/
def forecastTrackAt (k : String) (st : GroupMap) : List ForecastPoint :=
  ((lookupGroup k st).map (fun g => g.forecastTrack)).getD []

/-- The `currentPosition` observed at key `k` (`none` when `k` is absent). -/
def currentPositionAt (k : String) (st : GroupMap) : Option TrackPoint :=
  (lookupGroup k st).bind (fun g => g.currentPosition)

/-- Total number of track points stored across all groups of the state. -/
def storedPointCount (st : GroupMap) : ℕ :=
  (st.map (fun e => e.2.pastTrack.length + e.2.forecastTrack.length)).sum

/-- A bulletin line that contributes a stored track point: not skipped as
blank/comment, parsed successfully, and with a non-negative forecast
period (a point whose `forecastPeriod_hours` is negative is classified
into neither track, see `classifyPoint`). -/
def contributesLine (line : String) : Bool :=
  !skipLine line &&
    ((parse_atcf_line line).map (fun p => decide (0 ≤ p.forecastPeriod_hours))).getD false

/-- The keys of the state, in insertion order. -/
def keysOf (st : GroupMap) : List String := st.map Prod.fst

/-- The knots → m/s conversion as the spec states it:
`round(knots * 0.514444, 1)`, written with ordinary rational arithmetic
(`round(x, 1)` rounds `x * 10` to the nearest integer, ties to even,
then divides by `10`). -/
def knotsToMps_spec (k : ℤ) : ℚ := (roundHalfEven ((k : ℚ) * 0.514444 * 10) : ℚ) / 10

/-- A `BEST`-technique, forecast-hour-0 bulletin line (28 fields). -/
def lineBest0 : String :=
  "WP, 15, 2025071512, BEST, 03, 0, 150N, 1250E, 065, 985,,,,,,,,,,,,,,,,,, MAWAR"

/-- An `OFCL`-technique (non-`BEST`) line with forecast-hour 0. -/
def lineOfcl0 : String :=
  "WP, 15, 2025071512, OFCL, 03, 0, 150N, 1250E, 065, 985,,,,,,,,,,,,,,,,,, MAWAR"

/-- An `OFCL` line with forecast-hour 12. -/
def lineOfcl12 : String :=
  "WP, 15, 2025071512, OFCL, 03, 12, 155N, 1260E, 060, 990,,,,,,,,,,,,,,,,,, MAWAR"

/-- An `OFCL` line with forecast-hour 6 (same timestamp as `lineOfcl12`). -/
def lineOfcl6 : String :=
  "WP, 15, 2025071512, OFCL, 03, 6, 152N, 1255E, 062, 988,,,,,,,,,,,,,,,,,, MAWAR"

/-- An `OFCL` line with negative forecast-hour `-6`. -/
def lineNeg6 : String :=
  "WP, 15, 2025071512, OFCL, 03, -6, 153N, 1257E, 061, 989,,,,,,,,,,,,,,,,,, MAWAR"

/-- The `lineBest0` with the timestamp in the 8-digit `YYMMDDHH` encoding
(`25100600` = 2025-10-06 00Z under century inference). -/
def lineTs8 : String :=
  "WP, 15, 25100600, BEST, 03, 0, 150N, 1250E, 065, 985,,,,,,,,,,,,,,,,,, MAWAR"

/-- The `lineBest0` with a non-numeric max-wind field. -/
def lineWindXX : String :=
  "WP, 15, 2025071512, BEST, 03, 0, 150N, 1250E, XX, 985,,,,,,,,,,,,,,,,,, MAWAR"

/-- The `lineBest0` with a non-numeric central-pressure field. -/
def linePresXX : String :=
  "WP, 15, 2025071512, BEST, 03, 0, 150N, 1250E, 065, XX,,,,,,,,,,,,,,,,,, MAWAR"

/-- A truncated line with only 10 comma-separated fields. -/
def lineShort : String :=
  "WP, 15, 2025071512, BEST, 03, 0, 150N, 1250E, 065, 985"

/-- A `BEST` hour-0 line of a second cyclone, `WP14`. -/
def lineWp14 : String :=
  "WP, 14, 2025071512, BEST, 03, 0, 180N, 1300E, 045, 998,,,,,,,,,,,,,,,,,, GUCHOL"

/-- Invariant of an aggregation-state entry, relative to the list `L` of
lines already consumed: the group's `id` equals its dictionary key, every
`forecastTrack` point has a positive forecast period, and every
`pastTrack` point comes from a parsed line of `L` with forecast period 0. -/
def GroupOk (L : List String) (e : String × TyphoonGroup) : Prop :=
  e.2.id = e.1 ∧
  (∀ q ∈ e.2.forecastTrack, 0 < q.forecastPeriod_hours) ∧
  (∀ q ∈ e.2.pastTrack, ∃ l ∈ L, ∃ p, parse_atcf_line l = some p ∧
      p.forecastPeriod_hours = 0 ∧ q = toTrackPoint p)

/-- The point `parse_atcf_line` produces for `lineOfcl0`. -/
def pOfcl0 : ParsedPoint :=
  { time := "2025-07-15T12:00:00Z", lat := 15, lon := 125, windSpeed_knots := 65,
    windSpeed_ms := Rat.divInt 334 10, pressure_hpa := 985,
    forecastPeriod_hours := 0, typhoonName := "MAWAR", cycloneId := "WP15" }

/-- The point `parse_atcf_line` produces for `lineNeg6`. -/
def pNeg6 : ParsedPoint :=
  { time := "2025-07-15T12:00:00Z", lat := Rat.divInt 153 10, lon := Rat.divInt 1257 10,
    windSpeed_knots := 61, windSpeed_ms := Rat.divInt 314 10, pressure_hpa := 989,
    forecastPeriod_hours := -6, typhoonName := "MAWAR", cycloneId := "WP15" }

/-- The past-track point parsed from `lineBest0`. -/
def ptMawar : TrackPoint :=
  { lat := 15, lon := 125, time := "2025-07-15T12:00:00Z",
    windSpeed_knots := 65, windSpeed_ms := Rat.divInt 334 10, pressure_hpa := 985 }

/-- The forecast point parsed from `lineOfcl12`. -/
def fptMawar12 : ForecastPoint :=
  { lat := Rat.divInt 155 10, lon := 126, time := "2025-07-15T12:00:00Z",
    windSpeed_knots := 60, windSpeed_ms := Rat.divInt 309 10, pressure_hpa := 990,
    forecastPeriod_hours := 12 }

/-- The forecast point parsed from `lineOfcl6`. -/
def fptMawar6 : ForecastPoint :=
  { lat := Rat.divInt 152 10, lon := Rat.divInt 1255 10, time := "2025-07-15T12:00:00Z",
    windSpeed_knots := 62, windSpeed_ms := Rat.divInt 319 10, pressure_hpa := 988,
    forecastPeriod_hours := 6 }

/-- A two-line bulletin with two forecast lines, hours 12 then 6, equal
timestamps. -/
def bulletinTwoForecasts : String := lineOfcl12 ++ "\n" ++ lineOfcl6

/-- A two-line bulletin with two distinct cyclones, `WP14` and `WP15`. -/
def bulletinTwoCyclones : String := lineWp14 ++ "\n" ++ lineBest0

/-- A two-line bulletin with one `BEST` hour-0 line and one forecast line. -/
def bulletinMixed : String := lineBest0 ++ "\n" ++ lineOfcl12

set_option maxRecDepth 40000

/-- A line with fewer than 28 comma-separated fields is rejected
(api.py lines 144-146). -/
theorem parse_atcf_line_short (line : String)
    (h : (partsOf line).length < 28) :
    parse_atcf_line line = none := by
  unfold parse_atcf_line
  rw [if_pos h]

/-- A line whose timestamp field does not `strptime` is rejected
(api.py lines 169-174). -/
theorem parse_atcf_line_badTime (line : String)
    (h : pyStrptimeYmdH (fieldAt line 2) = none) :
    parse_atcf_line line = none := by
  unfold parse_atcf_line
  split
  · rfl
  · rw [h]

/-- A line whose max-wind field is not an integer literal is rejected
whole (api.py line 189: the `ValueError` of `int` reaches the `except`). -/
theorem parse_atcf_line_badWind (line : String)
    (h : pyInt (fieldAt line 8) = none) :
    parse_atcf_line line = none := by
  unfold parse_atcf_line
  split
  · rfl
  · split
    · rfl
    · split
      · rfl
      · split
        · rfl
        · rw [h]

/-- A line whose central-pressure field is not an integer literal is
rejected whole (api.py line 193). -/
theorem parse_atcf_line_badPressure (line : String)
    (h : pyInt (fieldAt line 9) = none) :
    parse_atcf_line line = none := by
  unfold parse_atcf_line
  split
  · rfl
  · split
    · rfl
    · split
      · rfl
      · split
        · rfl
        · split
          · rfl
          · rw [h]

/-- Every produced point carries the m/s wind speed computed from its
knots wind speed (api.py line 190). -/
theorem parse_atcf_line_windSpeed_ms (line : String) (p : ParsedPoint)
    (h : parse_atcf_line line = some p) :
    p.windSpeed_ms = knotsToMps p.windSpeed_knots := by
  unfold parse_atcf_line at h
  split at h
  · exact Option.noConfusion h
  · split at h
    · exact Option.noConfusion h
    · split at h
      · exact Option.noConfusion h
      · split at h
        · exact Option.noConfusion h
        · split at h
          · exact Option.noConfusion h
          · split at h
            · exact Option.noConfusion h
            · split at h
              · exact Option.noConfusion h
              · simp only [Option.some.injEq] at h
                subst h
                rfl

/-- A line the parser rejects leaves the aggregation state untouched. -/
theorem stepLine_of_parse_none (st : GroupMap) (line : String)
    (h : parse_atcf_line line = none) :
    stepLine st line = st := by
  unfold stepLine
  split
  · rfl
  · rw [h]

/-- A skipped (blank or `#`) line leaves the aggregation state untouched. -/
theorem stepLine_of_skip (st : GroupMap) (line : String)
    (h : skipLine line = true) :
    stepLine st line = st := by
  unfold stepLine
  rw [if_pos h]

/-- Looking up a key absent from the first part of an append. -/
theorem lookupGroup_append_of_none {k : String} {st l2 : GroupMap}
    (h : lookupGroup k st = none) :
    lookupGroup k (st ++ l2) = lookupGroup k l2 := by
  induction st with
  | nil => rfl
  | cons e rest ih =>
    by_cases hc : e.1 = k
    · simp [lookupGroup, hc] at h
    · simp only [List.cons_append, lookupGroup, hc, if_false] at h ⊢
      exact ih h

/-- Looking up a key present in the first part of an append. -/
theorem lookupGroup_append_of_some {k : String} {st l2 : GroupMap} {g : TyphoonGroup}
    (h : lookupGroup k st = some g) :
    lookupGroup k (st ++ l2) = some g := by
  induction st with
  | nil => exact Option.noConfusion h
  | cons e rest ih =>
    by_cases hc : e.1 = k
    · simp only [lookupGroup, hc, if_true] at h ⊢
      simpa using h
    · simp only [List.cons_append, lookupGroup, hc, if_false] at h ⊢
      exact ih h

/-- Updating at `k` rewrites exactly the groups stored at `k`. -/
theorem lookupGroup_setGroup_self (k : String) (g : TyphoonGroup) (st : GroupMap) :
    lookupGroup k (setGroup k g st) =
      (lookupGroup k st).map (fun _ => g) := by
  induction st with
  | nil => rfl
  | cons e rest ih =>
    by_cases hc : e.1 = k
    · simp [setGroup, lookupGroup, hc]
    · simp only [setGroup, lookupGroup, hc, if_false]
      exact ih

/-- Updating at another key does not change a lookup. -/
theorem lookupGroup_setGroup_other {k k2 : String} (g : TyphoonGroup) (st : GroupMap)
    (hne : k2 ≠ k) :
    lookupGroup k (setGroup k2 g st) = lookupGroup k st := by
  induction st with
  | nil => rfl
  | cons e rest ih =>
    by_cases hc : e.1 = k2
    · have hek : ¬e.1 = k := fun hh => hne (hc ▸ hh)
      simp only [setGroup]
      rw [if_pos hc]
      simp only [lookupGroup]
      rw [if_neg hek, if_neg hek]
      exact ih
    · simp only [setGroup]
      rw [if_neg hc]
      simp only [lookupGroup]
      by_cases hk : e.1 = k
      · rw [if_pos hk, if_pos hk]
      · rw [if_neg hk, if_neg hk]
        exact ih

/-- A lookup result is a value of the association list. -/
theorem lookupGroup_mem {k : String} {st : GroupMap} {g : TyphoonGroup}
    (h : lookupGroup k st = some g) : (k, g) ∈ st := by
  induction st with
  | nil => exact Option.noConfusion h
  | cons e rest ih =>
    by_cases hc : e.1 = k
    · simp only [lookupGroup, hc, if_true, Option.some.injEq] at h
      exact List.mem_cons.2 (Or.inl (by rw [← hc, ← h]))
    · simp only [lookupGroup, hc, if_false] at h
      exact List.mem_cons_of_mem _ (ih h)

/-- Entries after an update: either an old entry, or the entry at the
updated key carrying the new group. -/
theorem mem_setGroup {e : String × TyphoonGroup} {k : String} {g : TyphoonGroup}
    {st : GroupMap} (h : e ∈ setGroup k g st) : e ∈ st ∨ e = (k, g) := by
  induction st with
  | nil => exact absurd h (List.not_mem_nil e)
  | cons e0 rest ih =>
    by_cases hc : e0.1 = k
    · simp only [setGroup, hc, if_true] at h
      rcases List.mem_cons.1 h with h1 | h1
      · exact Or.inr h1
      · rcases ih h1 with h2 | h2
        · exact Or.inl (List.mem_cons_of_mem _ h2)
        · exact Or.inr h2
    · simp only [setGroup, hc, if_false] at h
      rcases List.mem_cons.1 h with h1 | h1
      · exact Or.inl (h1 ▸ List.mem_cons_self _ _)
      · rcases ih h1 with h2 | h2
        · exact Or.inl (List.mem_cons_of_mem _ h2)
        · exact Or.inr h2

/-- After `ensureGroup`, the point's cyclone id is present: with its old
group if it was present, with the fresh group otherwise. -/
theorem lookupGroup_ensureGroup_self (st : GroupMap) (p : ParsedPoint) :
    lookupGroup p.cycloneId (ensureGroup st p) =
      some ((lookupGroup p.cycloneId st).getD (freshGroup p)) := by
  unfold ensureGroup
  cases hl : lookupGroup p.cycloneId st with
  | none =>
    rw [lookupGroup_append_of_none hl]
    simp [lookupGroup]
  | some g => simp [hl]

/-- The `ensureGroup` does not change the lookup at other keys. -/
theorem lookupGroup_ensureGroup_other {k : String} (st : GroupMap) (p : ParsedPoint)
    (hne : k ≠ p.cycloneId) :
    lookupGroup k (ensureGroup st p) = lookupGroup k st := by
  unfold ensureGroup
  cases hl : lookupGroup p.cycloneId st with
  | none =>
    cases hk : lookupGroup k st with
    | none =>
      rw [lookupGroup_append_of_none hk]
      simp [lookupGroup, Ne.symm hne]
    | some g => rw [lookupGroup_append_of_some hk]
  | some g => rfl

/-- The `applyPoint` classifies the point into the group at its cyclone id. -/
theorem lookupGroup_applyPoint_self (st : GroupMap) (p : ParsedPoint) :
    lookupGroup p.cycloneId (applyPoint st p) =
      (lookupGroup p.cycloneId st).map (fun g => classifyPoint g p) := by
  unfold applyPoint
  cases hl : lookupGroup p.cycloneId st with
  | none => simp [hl]
  | some g =>
    rw [lookupGroup_setGroup_self]
    simp [hl]

/-- The `applyPoint` does not change the lookup at other keys. -/
theorem lookupGroup_applyPoint_other {k : String} (st : GroupMap) (p : ParsedPoint)
    (hne : k ≠ p.cycloneId) :
    lookupGroup k (applyPoint st p) = lookupGroup k st := by
  unfold applyPoint
  cases hl : lookupGroup p.cycloneId st with
  | none => rfl
  | some g => exact lookupGroup_setGroup_other _ _ (Ne.symm hne)

/-- The group at the parsed point's cyclone id after one loop iteration:
the classification applied to the old group (fresh if absent). -/
theorem lookupGroup_stepLine_self (st : GroupMap) (line : String) (p : ParsedPoint)
    (hskip : skipLine line = false) (hp : parse_atcf_line line = some p) :
    lookupGroup p.cycloneId (stepLine st line) =
      some (classifyPoint ((lookupGroup p.cycloneId st).getD (freshGroup p)) p) := by
  unfold stepLine
  rw [if_neg (by simp [hskip]), hp, lookupGroup_applyPoint_self,
    lookupGroup_ensureGroup_self]
  rfl

/-- One loop iteration does not change the group at other keys. -/
theorem lookupGroup_stepLine_other {k : String} (st : GroupMap) (line : String)
    (p : ParsedPoint) (hskip : skipLine line = false)
    (hp : parse_atcf_line line = some p) (hne : k ≠ p.cycloneId) :
    lookupGroup k (stepLine st line) = lookupGroup k st := by
  unfold stepLine
  rw [if_neg (by simp [hskip]), hp, lookupGroup_applyPoint_other _ _ hne,
    lookupGroup_ensureGroup_other _ _ hne]

/-- Routing of a zero-forecast-hour point: appended to `pastTrack` of its
cyclone id, `forecastTrack` untouched. -/
theorem stepLine_routes_zero {st : GroupMap} {line : String} {p : ParsedPoint}
    (hskip : skipLine line = false) (hp : parse_atcf_line line = some p)
    (h0 : p.forecastPeriod_hours = 0) :
    pastTrackAt p.cycloneId (stepLine st line) =
      pastTrackAt p.cycloneId st ++ [toTrackPoint p] ∧
    forecastTrackAt p.cycloneId (stepLine st line) =
      forecastTrackAt p.cycloneId st := by
  have hs := lookupGroup_stepLine_self st line p hskip hp
  unfold pastTrackAt forecastTrackAt
  rw [hs]
  cases hl : lookupGroup p.cycloneId st <;>
    simp [hl, classifyPoint, h0, freshGroup]

/-- Routing of a positive-forecast-hour point: appended to `forecastTrack`
of its cyclone id, `pastTrack` untouched. -/
theorem stepLine_routes_pos {st : GroupMap} {line : String} {p : ParsedPoint}
    (hskip : skipLine line = false) (hp : parse_atcf_line line = some p)
    (h0 : 0 < p.forecastPeriod_hours) :
    forecastTrackAt p.cycloneId (stepLine st line) =
      forecastTrackAt p.cycloneId st ++ [toForecastPoint p] ∧
    pastTrackAt p.cycloneId (stepLine st line) =
      pastTrackAt p.cycloneId st := by
  have hs := lookupGroup_stepLine_self st line p hskip hp
  have hne : ¬p.forecastPeriod_hours = 0 := by omega
  unfold pastTrackAt forecastTrackAt
  rw [hs]
  cases hl : lookupGroup p.cycloneId st <;>
    simp [hl, classifyPoint, hne, h0, freshGroup]

/-- A negative-forecast-hour point changes no track and no current
position, at any key. -/
theorem stepLine_neg_noop {st : GroupMap} {line : String} {p : ParsedPoint}
    (hskip : skipLine line = false) (hp : parse_atcf_line line = some p)
    (hneg : p.forecastPeriod_hours < 0) (k : String) :
    pastTrackAt k (stepLine st line) = pastTrackAt k st ∧
    forecastTrackAt k (stepLine st line) = forecastTrackAt k st ∧
    currentPositionAt k (stepLine st line) = currentPositionAt k st := by
  have hne : ¬p.forecastPeriod_hours = 0 := by omega
  have hnp : ¬0 < p.forecastPeriod_hours := by omega
  by_cases hk : k = p.cycloneId
  · subst hk
    have hs := lookupGroup_stepLine_self st line p hskip hp
    unfold pastTrackAt forecastTrackAt currentPositionAt
    rw [hs]
    cases hl : lookupGroup p.cycloneId st <;>
      simp [hl, classifyPoint, hne, hnp, freshGroup]
  · have hs := lookupGroup_stepLine_other st line p hskip hp hk
    unfold pastTrackAt forecastTrackAt currentPositionAt
    rw [hs]
    exact ⟨rfl, rfl, rfl⟩

/-- Unfolding the fold over the last bulletin line. -/
theorem parseBulletinLines_append (lines : List String) (l : String) :
    parseBulletinLines (lines ++ [l]) = stepLine (parseBulletinLines lines) l := by
  simp [parseBulletinLines, List.foldl_append]

/-- The invariant is monotone in the list of consumed lines. -/
theorem GroupOk.mono {L L' : List String} (hsub : ∀ l ∈ L, l ∈ L')
    {e : String × TyphoonGroup} (h : GroupOk L e) : GroupOk L' e := by
  refine ⟨h.1, h.2.1, fun q hq => ?_⟩
  obtain ⟨l, hl, p, hp, h0, hq'⟩ := h.2.2 q hq
  exact ⟨l, hsub l hl, p, hp, h0, hq'⟩

/-- A fresh group satisfies the invariant. -/
theorem groupOk_fresh (L : List String) (p : ParsedPoint) :
    GroupOk L (p.cycloneId, freshGroup p) := by
  refine ⟨rfl, ?_, ?_⟩ <;> intro q hq <;> simp [freshGroup] at hq

/-- Classifying a parsed line of `L` into a group preserves the invariant. -/
theorem groupOk_classify {L : List String} {line : String} {p : ParsedPoint}
    {k : String} {g : TyphoonGroup}
    (hp : parse_atcf_line line = some p) (hline : line ∈ L)
    (hg : GroupOk L (k, g)) : GroupOk L (k, classifyPoint g p) := by
  refine ⟨?_, ?_, ?_⟩
  · show (classifyPoint g p).id = k
    have hid : (classifyPoint g p).id = g.id := by
      unfold classifyPoint
      split_ifs <;> rfl
    rw [hid]
    exact hg.1
  · intro q hq
    unfold classifyPoint at hq
    split_ifs at hq with h0 h1
    · exact hg.2.1 q hq
    · rcases List.mem_append.1 hq with hmem | hmem
      · exact hg.2.1 q hmem
      · rw [List.mem_singleton.1 hmem]
        simpa [toForecastPoint] using h1
    · exact hg.2.1 q hq
  · intro q hq
    unfold classifyPoint at hq
    split_ifs at hq with h0 h1
    · rcases List.mem_append.1 hq with hmem | hmem
      · exact hg.2.2 q hmem
      · exact ⟨line, hline, p, hp, h0, List.mem_singleton.1 hmem⟩
    · exact hg.2.2 q hq
    · exact hg.2.2 q hq

/-- One loop iteration preserves the invariant (with the new line added to
the consumed list). -/
theorem stepLine_preserves_groupOk {L : List String} {st : GroupMap} (line : String)
    (h : ∀ e ∈ st, GroupOk L e) :
    ∀ e ∈ stepLine st line, GroupOk (L ++ [line]) e := by
  have hmono : ∀ l ∈ L, l ∈ L ++ [line] := fun l hl => List.mem_append_left _ hl
  intro e he
  by_cases hskip : skipLine line = true
  · rw [stepLine_of_skip _ _ hskip] at he
    exact (h e he).mono hmono
  · have hskip' : skipLine line = false := by simpa using hskip
    cases hp : parse_atcf_line line with
    | none =>
      rw [stepLine_of_parse_none _ _ hp] at he
      exact (h e he).mono hmono
    | some p =>
      have hstep : stepLine st line = applyPoint (ensureGroup st p) p := by
        unfold stepLine
        rw [if_neg (by simp [hskip']), hp]
      rw [hstep] at he
      have hens : ∀ e' ∈ ensureGroup st p, GroupOk (L ++ [line]) e' := by
        intro e' he'
        unfold ensureGroup at he'
        cases hl : lookupGroup p.cycloneId st with
        | none =>
          rw [hl] at he'
          rcases List.mem_append.1 he' with h1 | h1
          · exact (h e' h1).mono hmono
          · rw [List.mem_singleton.1 h1]
            exact groupOk_fresh _ p
        | some g =>
          rw [hl] at he'
          exact (h e' he').mono hmono
      unfold applyPoint at he
      cases hl : lookupGroup p.cycloneId (ensureGroup st p) with
      | none =>
        rw [hl] at he
        exact hens e he
      | some g =>
        rw [hl] at he
        rcases mem_setGroup he with h1 | h1
        · exact hens e h1
        · rw [h1]
          exact groupOk_classify hp (List.mem_append_right _ (List.mem_singleton.2 rfl))
            (hens _ (lookupGroup_mem hl))

/-- After consuming a whole bulletin, every state entry satisfies the
invariant relative to the bulletin's lines. -/
theorem parseBulletinLines_groupOk :
    ∀ lines : List String, ∀ e ∈ parseBulletinLines lines, GroupOk lines e := by
  intro lines
  induction lines using List.reverseRecOn with
  | nil => intro e he; exact absurd he (List.not_mem_nil e)
  | append_singleton L l ih =>
    rw [parseBulletinLines_append]
    exact stepLine_preserves_groupOk l ih

/-- The `Char.toNat` determines the character. -/
theorem char_toNat_inj {a b : Char} (h : a.toNat = b.toNat) : a = b :=
  Char.eq_of_val_eq (UInt32.toNat.inj h)

/-- Lexicographic strict order is irreflexive. -/
theorem listLexLt_irrefl : ∀ a : List Char, listLexLt a a = false := by
  intro a
  induction a with
  | nil => rfl
  | cons c cs ih =>
    unfold listLexLt
    simp [ih]

/-- Lexicographic strict order is transitive. -/
theorem listLexLt_trans : ∀ a b c : List Char,
    listLexLt a b = true → listLexLt b c = true → listLexLt a c = true := by
  intro a
  induction a with
  | nil =>
    intro b c hab hbc
    cases c with
    | nil =>
      cases b <;> simp [listLexLt] at hab hbc
    | cons z zs => simp [listLexLt]
  | cons x xs ih =>
    intro b c hab hbc
    cases b with
    | nil => simp [listLexLt] at hab
    | cons y ys =>
      cases c with
      | nil => simp [listLexLt] at hbc
      | cons z zs =>
        unfold listLexLt at hab hbc ⊢
        by_cases h1 : x.toNat < y.toNat
        · by_cases h2 : y.toNat < z.toNat
          · simp [show x.toNat < z.toNat by omega]
          · by_cases h4 : z.toNat < y.toNat
            · simp [h2, h4] at hbc
            · simp [show x.toNat < z.toNat by omega]
        · by_cases h1' : y.toNat < x.toNat
          · simp [h1, h1'] at hab
          · simp only [h1, h1', if_false] at hab
            by_cases h2 : y.toNat < z.toNat
            · simp [show x.toNat < z.toNat by omega]
            · by_cases h4 : z.toNat < y.toNat
              · simp [h2, h4] at hbc
              · simp only [h2, h4, if_false] at hbc
                simp only [show ¬x.toNat < z.toNat by omega,
                  show ¬z.toNat < x.toNat by omega, if_false]
                exact ih ys zs hab hbc

/-- Two lists neither of which lexicographically precedes the other are
equal. -/
theorem listLexLt_connex : ∀ a b : List Char,
    listLexLt a b = false → listLexLt b a = false → a = b := by
  intro a
  induction a with
  | nil =>
    intro b h1 _
    cases b with
    | nil => rfl
    | cons y ys => simp [listLexLt] at h1
  | cons x xs ih =>
    intro b h1 h2
    cases b with
    | nil => simp [listLexLt] at h2
    | cons y ys =>
      unfold listLexLt at h1 h2
      by_cases hxy : x.toNat < y.toNat
      · simp [hxy] at h1
      · by_cases hyx : y.toNat < x.toNat
        · simp [hyx] at h2
        · have hchar : x = y := char_toNat_inj (by omega)
          simp only [hxy, hyx, if_false] at h1
          simp only [hyx, hxy, if_false] at h2
          rw [hchar, ih ys h1 h2]

/-- Asymmetry of the lexicographic strict order. -/
theorem listLexLt_asymm {a b : List Char} (h : listLexLt a b = true) :
    listLexLt b a = false := by
  by_contra hc
  have hba : listLexLt b a = true := by
    cases hh : listLexLt b a
    · exact absurd hh hc
    · rfl
  have := listLexLt_trans a b a h hba
  rw [listLexLt_irrefl] at this
  exact Bool.noConfusion this

/-- The `pyStrLe` is total. -/
theorem pyStrLe_total (a b : String) : pyStrLe a b = true ∨ pyStrLe b a = true := by
  unfold pyStrLe pyStrLt
  cases hh : listLexLt b.data a.data
  · left; simp
  · right
    simp [listLexLt_asymm hh]

/-- The `pyStrLe` is transitive. -/
theorem pyStrLe_trans {a b c : String} (h1 : pyStrLe a b = true)
    (h2 : pyStrLe b c = true) : pyStrLe a c = true := by
  unfold pyStrLe pyStrLt at h1 h2 ⊢
  simp only [Bool.not_eq_true'] at h1 h2 ⊢
  by_contra hc
  have hca : listLexLt c.data a.data = true := by
    cases hh : listLexLt c.data a.data
    · exact absurd hh hc
    · rfl
  cases hcb : listLexLt c.data b.data
  · cases hbc : listLexLt b.data c.data
    · have : c.data = b.data := listLexLt_connex _ _ hcb hbc
      rw [this] at hca
      rw [hca] at h1
      exact Bool.noConfusion h1
    · have := listLexLt_trans b.data c.data a.data hbc hca
      rw [this] at h1
      exact Bool.noConfusion h1
  · rw [hcb] at h2
    exact Bool.noConfusion h2

/-- The `pyStrLt m k = false` is the same as `pyStrLe k m = true`. -/
theorem pyStrLe_of_not_lt {k m : String} (h : pyStrLt m k = false) :
    pyStrLe k m = true := by
  unfold pyStrLe
  rw [h]
  rfl

/-- The fold inside `maxKey` returns the accumulator or a list element. -/
theorem maxKey_foldl_mem : ∀ (ks : List String) (acc : String),
    ks.foldl (fun acc x => if pyStrLt acc x then x else acc) acc = acc ∨
    ks.foldl (fun acc x => if pyStrLt acc x then x else acc) acc ∈ ks := by
  intro ks
  induction ks with
  | nil => intro acc; exact Or.inl rfl
  | cons x ks ih =>
    intro acc
    simp only [List.foldl_cons]
    rcases ih (if pyStrLt acc x then x else acc) with h | h
    · rw [h]
      by_cases hax : pyStrLt acc x = true
      · rw [if_pos hax]
        exact Or.inr (List.mem_cons_self _ _)
      · rw [if_neg hax]
        exact Or.inl rfl
    · exact Or.inr (List.mem_cons_of_mem _ h)

/-- The fold inside `maxKey` dominates the accumulator and every element. -/
theorem maxKey_foldl_ge : ∀ (ks : List String) (acc k : String),
    (k = acc ∨ k ∈ ks) →
    pyStrLe k (ks.foldl (fun acc x => if pyStrLt acc x then x else acc) acc) = true := by
  intro ks
  induction ks with
  | nil =>
    intro acc k hk
    rcases hk with rfl | hk
    · exact pyStrLe_of_not_lt (listLexLt_irrefl _)
    · exact absurd hk (List.not_mem_nil k)
  | cons x ks ih =>
    intro acc k hk
    simp only [List.foldl_cons]
    have hacc : pyStrLe acc (if pyStrLt acc x then x else acc) = true := by
      by_cases hax : pyStrLt acc x = true
      · rw [if_pos hax]
        exact pyStrLe_of_not_lt (listLexLt_asymm hax)
      · rw [if_neg hax]
        exact pyStrLe_of_not_lt (listLexLt_irrefl _)
    have hx : pyStrLe x (if pyStrLt acc x then x else acc) = true := by
      by_cases hax : pyStrLt acc x = true
      · rw [if_pos hax]
        exact pyStrLe_of_not_lt (listLexLt_irrefl _)
      · rw [if_neg hax]
        exact pyStrLe_of_not_lt (by simpa using hax)
    rcases hk with rfl | hk
    · exact pyStrLe_trans hacc (ih _ _ (Or.inl rfl))
    · rcases List.mem_cons.1 hk with rfl | hk
      · exact pyStrLe_trans hx (ih _ _ (Or.inl rfl))
      · exact ih _ _ (Or.inr hk)

/-- The `maxKey` returns a member of the list that dominates every member. -/
theorem maxKey_spec {l : List String} {m : String} (h : maxKey l = some m) :
    m ∈ l ∧ ∀ k ∈ l, pyStrLe k m = true := by
  cases l with
  | nil => exact Option.noConfusion h
  | cons a ks =>
    simp only [maxKey, Option.some.injEq] at h
    subst h
    constructor
    · rcases maxKey_foldl_mem ks a with h | h
      · rw [h]; exact List.mem_cons_self _ _
      · exact List.mem_cons_of_mem _ h
    · intro k hk
      rcases List.mem_cons.1 hk with rfl | hk
      · exact maxKey_foldl_ge ks k k (Or.inl rfl)
      · exact maxKey_foldl_ge ks a k (Or.inr hk)

/-- Shape of a successful selection (api.py lines 350-363): the greatest
cyclone id is looked up, its tracks sorted by time and its
`currentPosition` reset to the last past point. -/
theorem selectTyphoon_some {st : GroupMap} {g : TyphoonGroup}
    (h : selectTyphoon st = some g) :
    ∃ k g0, maxKey (keysOf st) = some k ∧ lookupGroup k st = some g0 ∧
      g = { g0 with
              pastTrack := sortPastTrack g0.pastTrack,
              forecastTrack := sortForecastTrack g0.forecastTrack,
              currentPosition := (sortPastTrack g0.pastTrack).getLast? } := by
  unfold selectTyphoon at h
  split at h
  · exact Option.noConfusion h
  · rename_i k hk
    split at h
    · exact Option.noConfusion h
    · rename_i g0 hg0
      simp only [Option.some.injEq] at h
      exact ⟨k, g0, hk, hg0, h.symm⟩

/-- The time-sorted past track is sorted under the string order on `time`. -/
theorem sortPastTrack_sorted (l : List TrackPoint) :
    List.Pairwise (fun a b => pyStrLe a.time b.time = true) (sortPastTrack l) := by
  haveI : IsTotal TrackPoint (fun a b => pyStrLe a.time b.time = true) :=
    ⟨fun a b => pyStrLe_total a.time b.time⟩
  haveI : IsTrans TrackPoint (fun a b => pyStrLe a.time b.time = true) :=
    ⟨fun _ _ _ hab hbc => pyStrLe_trans hab hbc⟩
  exact List.sorted_insertionSort _ l

/-- The time-sorted forecast track is sorted under the string order on
`time`. -/
theorem sortForecastTrack_sorted (l : List ForecastPoint) :
    List.Pairwise (fun a b => pyStrLe a.time b.time = true) (sortForecastTrack l) := by
  haveI : IsTotal ForecastPoint (fun a b => pyStrLe a.time b.time = true) :=
    ⟨fun a b => pyStrLe_total a.time b.time⟩
  haveI : IsTrans ForecastPoint (fun a b => pyStrLe a.time b.time = true) :=
    ⟨fun _ _ _ hab hbc => pyStrLe_trans hab hbc⟩
  exact List.sorted_insertionSort _ l

/-- Sorting the past track permutes it. -/
theorem sortPastTrack_perm (l : List TrackPoint) : (sortPastTrack l).Perm l :=
  List.perm_insertionSort _ l

/-- Sorting the forecast track permutes it. -/
theorem sortForecastTrack_perm (l : List ForecastPoint) :
    (sortForecastTrack l).Perm l :=
  List.perm_insertionSort _ l

/-- Updating a group does not change the key list. -/
theorem keysOf_setGroup (k : String) (g : TyphoonGroup) (st : GroupMap) :
    keysOf (setGroup k g st) = keysOf st := by
  induction st with
  | nil => rfl
  | cons e rest ih =>
    simp only [keysOf, setGroup] at ih ⊢
    by_cases hc : e.1 = k
    · rw [if_pos hc]
      simp [ih]
    · rw [if_neg hc]
      simp [ih]

/-- An absent key is not in the key list. -/
theorem not_mem_keysOf_of_lookup_none {k : String} {st : GroupMap}
    (h : lookupGroup k st = none) : k ∉ keysOf st := by
  induction st with
  | nil => simp [keysOf]
  | cons e rest ih =>
    by_cases hc : e.1 = k
    · simp [lookupGroup, hc] at h
    · simp only [lookupGroup, hc, if_false] at h
      intro hmem
      simp only [keysOf, List.map_cons, List.mem_cons] at hmem
      rcases hmem with h1 | h1
      · exact hc h1.symm
      · exact (ih h) h1

/-- Updating at a key that is not present is the identity. -/
theorem setGroup_not_mem {k : String} {g : TyphoonGroup} {st : GroupMap}
    (h : k ∉ keysOf st) : setGroup k g st = st := by
  induction st with
  | nil => rfl
  | cons e rest ih =>
    simp only [keysOf, List.map_cons, List.mem_cons, not_or] at h
    obtain ⟨hne, hnot⟩ := h
    have h1 : ¬e.1 = k := fun hh => hne hh.symm
    simp only [setGroup, if_neg h1]
    rw [ih (by simpa [keysOf] using hnot)]

/-- Appending a fresh entry adds its size to the stored-point count. -/
theorem storedPointCount_append (st : GroupMap) (e : String × TyphoonGroup) :
    storedPointCount (st ++ [e]) =
      storedPointCount st + (e.2.pastTrack.length + e.2.forecastTrack.length) := by
  simp [storedPointCount]

/-- Replacing the group at a present key (keys unique) exchanges the old
size for the new one. -/
theorem storedPointCount_setGroup {k : String} {g : TyphoonGroup} (g2 : TyphoonGroup)
    {st : GroupMap} (hnd : (keysOf st).Nodup) (hl : lookupGroup k st = some g) :
    storedPointCount (setGroup k g2 st) +
        (g.pastTrack.length + g.forecastTrack.length) =
      storedPointCount st + (g2.pastTrack.length + g2.forecastTrack.length) := by
  induction st with
  | nil => exact Option.noConfusion hl
  | cons e rest ih =>
    simp only [keysOf, List.map_cons, List.nodup_cons] at hnd
    obtain ⟨hknot, hnd'⟩ := hnd
    by_cases hc : e.1 = k
    · simp only [lookupGroup, hc, if_true, Option.some.injEq] at hl
      have hrest : setGroup k g2 rest = rest := by
        refine setGroup_not_mem ?_
        rw [← hc]
        simpa [keysOf] using hknot
      simp only [setGroup, hc, if_true]
      rw [hrest]
      simp only [storedPointCount, List.map_cons, List.sum_cons, ← hl]
      omega
    · simp only [lookupGroup, hc, if_false] at hl
      simp only [setGroup, hc, if_false]
      have := ih (by simpa [keysOf] using hnd') hl
      simp only [storedPointCount, List.map_cons, List.sum_cons] at this ⊢
      omega

/-- The classification adds exactly one stored point when the forecast
period is non-negative, and none otherwise. -/
theorem classifyPoint_size (g : TyphoonGroup) (p : ParsedPoint) :
    (classifyPoint g p).pastTrack.length + (classifyPoint g p).forecastTrack.length =
      g.pastTrack.length + g.forecastTrack.length +
        (if 0 ≤ p.forecastPeriod_hours then 1 else 0) := by
  unfold classifyPoint
  split_ifs <;> (try simp) <;> omega

/-- One loop iteration keeps the keys unique and adds exactly one stored
point for a contributing line, none otherwise. -/
theorem stepLine_nodup_count {st : GroupMap} (line : String)
    (hnd : (keysOf st).Nodup) :
    (keysOf (stepLine st line)).Nodup ∧
    storedPointCount (stepLine st line) =
      storedPointCount st + (if contributesLine line then 1 else 0) := by
  by_cases hskip : skipLine line = true
  · rw [stepLine_of_skip _ _ hskip]
    simp [contributesLine, hskip, hnd]
  · have hskip' : skipLine line = false := by simpa using hskip
    cases hp : parse_atcf_line line with
    | none =>
      rw [stepLine_of_parse_none _ _ hp]
      simp [contributesLine, hskip', hp, hnd]
    | some p =>
      have hstep : stepLine st line = applyPoint (ensureGroup st p) p := by
        unfold stepLine
        rw [if_neg (by simp [hskip']), hp]
      have hcontrib : contributesLine line = decide (0 ≤ p.forecastPeriod_hours) := by
        simp [contributesLine, hskip', hp]
      rw [hstep, hcontrib]
      cases hl : lookupGroup p.cycloneId st with
      | none =>
        have hens : ensureGroup st p = st ++ [(p.cycloneId, freshGroup p)] := by
          unfold ensureGroup
          rw [hl]
        have hkey : keysOf (ensureGroup st p) = keysOf st ++ [p.cycloneId] := by
          rw [hens]
          simp [keysOf]
        have hnd1 : (keysOf (ensureGroup st p)).Nodup := by
          rw [hkey, List.nodup_append]
          refine ⟨hnd, List.nodup_singleton _, ?_⟩
          intro a ha hb
          rw [List.mem_singleton.1 hb] at ha
          exact not_mem_keysOf_of_lookup_none hl ha
        have hlens : lookupGroup p.cycloneId (ensureGroup st p) = some (freshGroup p) := by
          rw [hens, lookupGroup_append_of_none hl]
          simp [lookupGroup]
        have hcnt1 : storedPointCount (ensureGroup st p) = storedPointCount st := by
          rw [hens, storedPointCount_append]
          simp [freshGroup]
        unfold applyPoint
        rw [hlens]
        dsimp only
        refine ⟨by rw [keysOf_setGroup]; exact hnd1, ?_⟩
        have hset := storedPointCount_setGroup (classifyPoint (freshGroup p) p)
          hnd1 hlens
        have hsize := classifyPoint_size (freshGroup p) p
        have hfp : (freshGroup p).pastTrack.length = 0 := rfl
        have hff : (freshGroup p).forecastTrack.length = 0 := rfl
        rw [hfp, hff] at hset hsize
        by_cases h0 : (0:ℤ) ≤ p.forecastPeriod_hours
        · rw [if_pos (by simpa using h0)]
          rw [if_pos h0] at hsize
          omega
        · rw [if_neg (by simpa using h0)]
          rw [if_neg h0] at hsize
          omega
      | some g =>
        have hens : ensureGroup st p = st := by
          unfold ensureGroup
          rw [hl]
        unfold applyPoint
        rw [hens, hl]
        dsimp only
        refine ⟨by rw [keysOf_setGroup]; exact hnd, ?_⟩
        have hset := storedPointCount_setGroup (classifyPoint g p) hnd hl
        have hsize := classifyPoint_size g p
        by_cases h0 : (0:ℤ) ≤ p.forecastPeriod_hours
        · rw [if_pos (by simpa using h0)]
          rw [if_pos h0] at hsize
          omega
        · rw [if_neg (by simpa using h0)]
          rw [if_neg h0] at hsize
          omega

/-- After a whole bulletin: keys unique, and the stored-point count equals
the number of contributing lines. -/
theorem parseBulletinLines_count (lines : List String) :
    (keysOf (parseBulletinLines lines)).Nodup ∧
    storedPointCount (parseBulletinLines lines) = lines.countP contributesLine := by
  induction lines using List.reverseRecOn with
  | nil => simp [parseBulletinLines, keysOf, storedPointCount]
  | append_singleton L l ih =>
    rw [parseBulletinLines_append]
    obtain ⟨hnd, hcnt⟩ := ih
    obtain ⟨hnd', hcnt'⟩ := stepLine_nodup_count l hnd
    refine ⟨hnd', ?_⟩
    rw [hcnt', hcnt, List.countP_append]
    by_cases hc : contributesLine l = true <;> simp [hc]

/-- On proper strings the keyword loop never raises and computes the
existential keyword test. -/
theorem relevantLoop_strings (ks : List String) (t d : String) :
    relevantLoop ks (some t) (some d) =
      some (ks.any (fun k => pyInStr k t || pyInStr k d)) := by
  induction ks with
  | nil => rfl
  | cons k rest ih =>
    simp only [relevantLoop, pyInOpt, List.any_cons]
    by_cases h1 : pyInStr k t = true
    · simp [h1]
    · simp only [Bool.not_eq_true] at h1
      by_cases h2 : pyInStr k d = true
      · simp [h1, h2]
      · simp only [Bool.not_eq_true] at h2
        simp [h1, h2, ih]

/-- A Python-`None` title raises on the very first keyword. -/
theorem relevantLoop_none_title (ks : List String) (d : Option String)
    (h : ks ≠ []) : relevantLoop ks none d = none := by
  cases ks with
  | nil => exact absurd rfl h
  | cons k rest => rfl

/-- The warning loop on items with proper title and description strings
succeeds, appending to the accumulator the relevant stored dicts in feed
order. -/
theorem warningsGo_good (items : List RssItem) :
    ∀ acc : List WarningItem, (∀ it ∈ items, goodItem it = true) →
    warningsGo items acc =
      some (acc ++ (items.map itemWarning).filter relevantWarning) := by
  induction items with
  | nil =>
    intro acc _
    simp [warningsGo]
  | cons it rest ih =>
    intro acc h
    have hg := h it (List.mem_cons_self _ _)
    simp only [goodItem, Bool.and_eq_true, Option.isSome_iff_exists] at hg
    obtain ⟨⟨t, ht⟩, d, hd⟩ := hg
    have hrest : ∀ x ∈ rest, goodItem x = true :=
      fun x hx => h x (List.mem_cons_of_mem _ hx)
    have hrel : relevantWarning (itemWarning it) = isRelevantItem t d := by
      rw [relevantWarning, ht, hd]
      simp
    simp only [warningsGo, ht, hd, relevantLoop_strings, List.map_cons,
      List.filter_cons]
    by_cases hr : isRelevantItem t d = true
    · rw [show (keywords_to_filter.any fun k => pyInStr k t || pyInStr k d) = true
        from hr]
      rw [ih _ hrest, hrel, hr]
      simp
    · simp only [Bool.not_eq_true] at hr
      rw [show (keywords_to_filter.any fun k => pyInStr k t || pyInStr k d) = false
        from hr]
      rw [hrel, hr]
      simpa using ih _ hrest

/-- The warning loop aborts (returns `none`) as soon as it reaches an
item whose title element is present but empty, whatever came before and
whatever follows. -/
theorem warningsGo_abort (it : RssItem) (hbad : it.title = some none) :
    ∀ (pre : List RssItem) (post : List RssItem) (acc : List WarningItem),
    (∀ x ∈ pre, goodItem x = true) →
    warningsGo (pre ++ it :: post) acc = none := by
  have htitle : (itemWarning it).title = none := by
    rw [itemWarning]
    simp [hbad, textOrEmpty]
  intro pre
  induction pre with
  | nil =>
    intro post acc _
    simp only [List.nil_append, warningsGo, htitle]
    rw [relevantLoop_none_title _ _ (by decide)]
  | cons x rest ih =>
    intro post acc h
    have hg := h x (List.mem_cons_self _ _)
    simp only [goodItem, Bool.and_eq_true, Option.isSome_iff_exists] at hg
    obtain ⟨⟨t, ht⟩, d, hd⟩ := hg
    have hrest : ∀ y ∈ rest, goodItem y = true :=
      fun y hy => h y (List.mem_cons_of_mem _ hy)
    simp only [List.cons_append, warningsGo, ht, hd, relevantLoop_strings]
    by_cases hr : (keywords_to_filter.any fun k => pyInStr k t || pyInStr k d) = true
    · rw [show (keywords_to_filter.any fun k => pyInStr k t || pyInStr k d) = true
        from hr]
      exact ih post _ hrest
    · simp only [Bool.not_eq_true] at hr
      rw [show (keywords_to_filter.any fun k => pyInStr k t || pyInStr k d) = false
        from hr]
      exact ih post _ hrest

/-- The `dropWhile` is the identity when no element satisfies the predicate. -/
theorem dropWhile_eq_self_of {p : Char → Bool} {l : List Char}
    (h : ∀ c ∈ l, p c = false) : l.dropWhile p = l := by
  cases l with
  | nil => rfl
  | cons c cs =>
    rw [List.dropWhile_cons, h c (List.mem_cons_self _ _)]
    simp

/-- The `takeWhile` keeps everything when every element satisfies the predicate. -/
theorem takeWhile_eq_self_of {p : Char → Bool} {l : List Char}
    (h : ∀ c ∈ l, p c = true) : l.takeWhile p = l := by
  induction l with
  | nil => rfl
  | cons c cs ih =>
    have hc := h c (List.mem_cons_self _ _)
    simp [List.takeWhile_cons, hc, ih (fun x hx => h x (List.mem_cons_of_mem _ hx))]

/-- The `dropWhile` drops everything when every element satisfies the predicate. -/
theorem dropWhile_eq_nil_of {p : Char → Bool} {l : List Char}
    (h : ∀ c ∈ l, p c = true) : l.dropWhile p = [] := by
  induction l with
  | nil => rfl
  | cons c cs ih =>
    rw [List.dropWhile_cons, h c (List.mem_cons_self _ _)]
    simp only [if_true]
    exact ih (fun c hc => h c (List.mem_cons_of_mem _ hc))

/-- A digit character is not Python whitespace. -/
theorem isPySpace_of_digit {c : Char} (h : c.isDigit = true) : isPySpace c = false := by
  cases hsp : isPySpace c
  · rfl
  · exfalso
    unfold isPySpace at hsp
    simp only [Bool.or_eq_true, beq_iff_eq] at hsp
    rcases hsp with ((((rfl | rfl) | rfl) | rfl) | rfl) | rfl <;>
      exact absurd h (by decide)

/-- The `strip` is the identity on a whitespace-free string. -/
theorem pyStrip_mk_of {cs : List Char} (h : ∀ c ∈ cs, isPySpace c = false) :
    pyStrip (String.mk cs) = String.mk cs := by
  unfold pyStrip
  rw [show (String.mk cs).data = cs from rfl]
  rw [dropWhile_eq_self_of h]
  rw [dropWhile_eq_self_of (fun c hc => h c (List.mem_reverse.1 hc))]
  rw [List.reverse_reverse]

/-- The sign splitter is the identity on a digit-headed list. -/
theorem pySignSplit_digits {ds : List Char} (hne : ds ≠ [])
    (hd : ∀ c ∈ ds, c.isDigit = true) : pySignSplit ds = (false, ds) := by
  cases ds with
  | nil => exact absurd rfl hne
  | cons c cs =>
    have hc := hd c (List.mem_cons_self _ _)
    have h1 : ¬c = '-' := fun hh => by rw [hh] at hc; exact absurd hc (by decide)
    have h2 : ¬c = '+' := fun hh => by rw [hh] at hc; exact absurd hc (by decide)
    simp [pySignSplit, h1, h2]

/-- The `float` on a pure digit string returns its integer value. -/
theorem pyFloat_digits {ds : List Char} (hne : ds ≠ [])
    (hd : ∀ c ∈ ds, c.isDigit = true) :
    pyFloat (String.mk ds) = some (Rat.divInt (digitsToNat ds) 1) := by
  unfold pyFloat
  rw [pyStrip_mk_of (fun c hc => isPySpace_of_digit (hd c hc))]
  dsimp only
  rw [pySignSplit_digits hne hd]
  dsimp only
  unfold parseDecimalParts?
  dsimp only
  rw [takeWhile_eq_self_of hd, dropWhile_eq_nil_of hd]
  simp [hne]

/-- The `qDivTen` is division by ten. -/
theorem qDivTen_eq (v : ℚ) : qDivTen v = v / 10 := by
  unfold qDivTen
  rw [Rat.divInt_eq_div]
  push_cast
  rw [← div_div, Rat.num_div_den]

/-- The compass parser on a digit string with a directional suffix:
value `digits/10`, negated exactly when the suffix is the negative one. -/
theorem parseCoordField_digits {ds : List Char} (negSuffix sfx : Char)
    (hne : ds ≠ []) (hd : ∀ c ∈ ds, c.isDigit = true) :
    parseCoordField negSuffix (String.mk (ds ++ [sfx])) =
      some (if sfx = negSuffix then -((digitsToNat ds : ℚ) / 10)
            else (digitsToNat ds : ℚ) / 10) := by
  unfold parseCoordField
  have hdrop : dropLastStr (String.mk (ds ++ [sfx])) = String.mk ds := by
    unfold dropLastStr
    rw [show (String.mk (ds ++ [sfx])).data = ds ++ [sfx] from rfl]
    rw [List.dropLast_concat]
  rw [hdrop, pyFloat_digits hne hd]
  have hlast : pyEndsWith (String.mk (ds ++ [sfx])) negSuffix =
      decide (sfx = negSuffix) := by
    unfold pyEndsWith
    rw [show (String.mk (ds ++ [sfx])).data = ds ++ [sfx] from rfl]
    rw [List.getLast?_concat]
    by_cases hc : sfx = negSuffix <;> simp [hc]
  rw [hlast]
  have hq : qDivTen (Rat.divInt (digitsToNat ds) 1) = (digitsToNat ds : ℚ) / 10 := by
    rw [qDivTen_eq, Rat.divInt_one]
    norm_num
  simp only [decide_eq_true_eq]
  by_cases hc : sfx = negSuffix
  · rw [if_pos hc, if_pos hc, hq]
  · rw [if_neg hc, if_neg hc, hq]

/-- The code's knots → m/s conversion computes the spec's
`round(knots * 0.514444, 1)`. -/
theorem knotsToMps_eq_spec (k : ℤ) : knotsToMps k = knotsToMps_spec k := by
  unfold knotsToMps knotsToMps_spec
  have h1 : Rat.divInt (514444 * k) 100000 = (k : ℚ) * 0.514444 * 10 := by
    rw [Rat.divInt_eq_div]
    push_cast
    ring_nf
  rw [h1, Rat.divInt_eq_div]
  norm_num

/-- The digit character of `n` is a digit. -/
theorem digitOf_isDigit (n : ℕ) : (digitOf n).isDigit = true := by
  have h : n % 10 < 10 := Nat.mod_lt _ (by norm_num)
  unfold digitOf
  generalize hg : n % 10 = m at h ⊢
  interval_cases m <;> decide

/-- Code point of the digit character of `n`. -/
theorem digitOf_toNat (n : ℕ) : (digitOf n).toNat = 48 + n % 10 := by
  have h : n % 10 < 10 := Nat.mod_lt _ (by norm_num)
  unfold digitOf
  generalize hg : n % 10 = m at h ⊢
  interval_cases m <;> decide

/-- Every month length is at most 31. -/
theorem daysInMonth_le (y m : ℕ) : daysInMonth y m ≤ 31 := by
  unfold daysInMonth
  split_ifs <;> norm_num

/-- The `%Y` consumes the four zero-padded digits of `y ≤ 9999` and yields `y`. -/
theorem altY_digits (y : ℕ) (hy : y ≤ 9999) (rest : List Char) :
    altY (digitOf (y / 1000) :: digitOf (y / 100) :: digitOf (y / 10) ::
      digitOf y :: rest) = some (y, rest) := by
  unfold altY
  dsimp only
  rw [if_pos ⟨digitOf_isDigit _, digitOf_isDigit _, digitOf_isDigit _, digitOf_isDigit _⟩]
  simp only [digitOf_toNat, Option.some.injEq, Prod.mk.injEq]
  refine ⟨by omega, ?_⟩
  try rfl
  try trivial

/-- The `%m` on the two zero-padded digits of a valid month: the first regex
candidate consumes both digits and yields the month. -/
theorem altM_digits (m : ℕ) (h1 : 1 ≤ m) (h2 : m ≤ 12) (rest : List Char) :
    ∃ tl, altM (digitOf (m / 10) :: digitOf m :: rest) = (m, rest) :: tl := by
  interval_cases m <;> exact ⟨_, rfl⟩

/-- The `%d` on the two zero-padded digits of a valid day-of-month. -/
theorem altD_digits (d : ℕ) (h1 : 1 ≤ d) (h2 : d ≤ 31) (rest : List Char) :
    ∃ tl, altD (digitOf (d / 10) :: digitOf d :: rest) = (d, rest) :: tl := by
  interval_cases d <;> exact ⟨_, rfl⟩

/-- The `%H` on the two zero-padded digits of a valid hour. -/
theorem altH_digits (h : ℕ) (h2 : h ≤ 23) (rest : List Char) :
    ∃ tl, altH (digitOf (h / 10) :: digitOf h :: rest) = (h, rest) :: tl := by
  interval_cases h <;> exact ⟨_, rfl⟩

/-- The `findSome?` returns the value of the first succeeding candidate. -/
theorem findSome?_cons_some {α β : Type} (f : α → Option β) {a : α} {l : List α}
    (b : β) (h : f a = some b) : List.findSome? f (a :: l) = some b := by
  rw [List.findSome?_cons, h]

/-- The `strptime('%Y%m%d%H')` accepts every valid zero-padded 10-digit
`YYYYMMDDHH` timestamp and returns exactly its components. -/
theorem pyStrptimeYmdH_valid (y m d h : ℕ) (hy1 : 1 ≤ y) (hy2 : y ≤ 9999)
    (hm1 : 1 ≤ m) (hm2 : m ≤ 12) (hd1 : 1 ≤ d) (hd2 : d ≤ daysInMonth y m)
    (hh : h ≤ 23) :
    pyStrptimeYmdH (pad4 y ++ pad2 m ++ pad2 d ++ pad2 h) = some ⟨y, m, d, h⟩ := by
  have hd31 : d ≤ 31 := le_trans hd2 (daysInMonth_le y m)
  have hdata : (pad4 y ++ pad2 m ++ pad2 d ++ pad2 h).data =
      digitOf (y / 1000) :: digitOf (y / 100) :: digitOf (y / 10) :: digitOf y ::
      digitOf (m / 10) :: digitOf m :: digitOf (d / 10) :: digitOf d ::
      digitOf (h / 10) :: digitOf h :: ([] : List Char) := by
    simp [pad4, pad2, String.data_append]
  obtain ⟨tlm, htlm⟩ := altM_digits m hm1 hm2
    (digitOf (d / 10) :: digitOf d :: digitOf (h / 10) :: digitOf h :: [])
  obtain ⟨tld, htld⟩ := altD_digits d hd1 hd31
    (digitOf (h / 10) :: digitOf h :: [])
  obtain ⟨tlh, htlh⟩ := altH_digits h hh ([] : List Char)
  unfold pyStrptimeYmdH
  rw [hdata]
  unfold strptimeYmdHChars
  rw [altY_digits y hy2]
  simp only [Option.some_bind]
  rw [htlm]
  rw [findSome?_cons_some _ (y, m, d, h) ?_]
  · simp only [Option.some_bind]
    rw [if_pos ⟨hy1, hm1, hm2, hd1, hd2, hh⟩]
  · dsimp only
    rw [htld]
    refine findSome?_cons_some _ _ ?_
    dsimp only
    rw [htlh]
    refine findSome?_cons_some _ _ ?_
    dsimp only
    rw [if_pos rfl]


/-- C1 counterexample: the single bulletin line `lineOfcl0` has technique
field `OFCL` (non-`BEST`) and forecast-hour 0; the claim requires it to be
routed into `forecastTrack`, but the code routes it into `pastTrack`
(`forecastTrack` stays empty): the technique field is never consulted. -/
theorem C1_counterexample :
    (get_international_typhoon_data lineOfcl0).map
      (fun g => (g.pastTrack.length, g.forecastTrack.length)) = some (1, 0) := by
  decide

/-- C1, amended: a parsed, non-skipped point is routed into `pastTrack`
exactly when its forecast-hour (field 5) is 0 and into `forecastTrack`
exactly when it is positive, regardless of the technique field. -/
theorem C1_routing (st : GroupMap) (line : String) (p : ParsedPoint)
    (hp : parse_atcf_line line = some p) (hskip : skipLine line = false) :
    (p.forecastPeriod_hours = 0 →
      pastTrackAt p.cycloneId (stepLine st line) =
        pastTrackAt p.cycloneId st ++ [toTrackPoint p] ∧
      forecastTrackAt p.cycloneId (stepLine st line) =
        forecastTrackAt p.cycloneId st) ∧
    (0 < p.forecastPeriod_hours →
      forecastTrackAt p.cycloneId (stepLine st line) =
        forecastTrackAt p.cycloneId st ++ [toForecastPoint p] ∧
      pastTrackAt p.cycloneId (stepLine st line) =
        pastTrackAt p.cycloneId st) := by
  exact ⟨fun h0 => stepLine_routes_zero hskip hp h0,
         fun hpos => stepLine_routes_pos hskip hp hpos⟩

/-- Witness for `C1_routing` at the concrete `OFCL` hour-0 line. -/
theorem C1_routing_witness :
    pastTrackAt pOfcl0.cycloneId (stepLine [] lineOfcl0) =
      pastTrackAt pOfcl0.cycloneId [] ++ [toTrackPoint pOfcl0] ∧
    forecastTrackAt pOfcl0.cycloneId (stepLine [] lineOfcl0) =
      forecastTrackAt pOfcl0.cycloneId [] :=
  (C1_routing [] lineOfcl0 pOfcl0 (by decide) (by decide)).1 (by decide)

/-- C2 counterexample: two forecast lines with the same timestamp and
forecast hours 12 then 6 keep that order in the final `forecastTrack`
(the sort key at api.py line 357 is the time string, and the sort is
stable), so `forecastTrack` is not ascending in `forecastPeriod_hours`. -/
theorem C2_counterexample :
    (get_international_typhoon_data bulletinTwoForecasts).map
      (fun g => g.forecastTrack.map (fun q => q.forecastPeriod_hours)) =
        some [12, 6] ∧
    ¬ List.Pairwise (fun a b => a ≤ b) ([12, 6] : List ℤ) := by
  constructor
  · decide
  · decide

/-- C2, amended: for the selected cyclone, `pastTrack` is sorted ascending
by time, `forecastTrack` is sorted ascending by time (not by forecast
hour), and `currentPosition` is the last element of the sorted
`pastTrack` (`none` when it is empty). -/
theorem C2_sorted (text : String) (g : TyphoonGroup)
    (h : get_international_typhoon_data text = some g) :
    List.Pairwise (fun a b => pyStrLe a.time b.time = true) g.pastTrack ∧
    List.Pairwise (fun a b => pyStrLe a.time b.time = true) g.forecastTrack ∧
    g.currentPosition = g.pastTrack.getLast? := by
  unfold get_international_typhoon_data at h
  obtain ⟨k, g0, _, _, rfl⟩ := selectTyphoon_some h
  exact ⟨sortPastTrack_sorted _, sortForecastTrack_sorted _, rfl⟩

/-- Witness for `C2_sorted` at the two-forecast bulletin. -/
theorem C2_sorted_witness :
    List.Pairwise (fun a b => pyStrLe a.time b.time = true)
      (TyphoonGroup.pastTrack
        ⟨[], [fptMawar12, fptMawar6], none, "MAWAR", "WP15", "JTWC (via NCEP)"⟩) ∧
    List.Pairwise (fun a b => pyStrLe a.time b.time = true)
      (TyphoonGroup.forecastTrack
        ⟨[], [fptMawar12, fptMawar6], none, "MAWAR", "WP15", "JTWC (via NCEP)"⟩) ∧
    (TyphoonGroup.currentPosition
        ⟨[], [fptMawar12, fptMawar6], none, "MAWAR", "WP15", "JTWC (via NCEP)"⟩) =
      (TyphoonGroup.pastTrack
        ⟨[], [fptMawar12, fptMawar6], none, "MAWAR", "WP15", "JTWC (via NCEP)"⟩).getLast? :=
  C2_sorted bulletinTwoForecasts _ (by decide)

/-- C3 counterexample: `lineTs8` carries the 8-digit `YYMMDDHH` timestamp
`25100600` (2025-10-06 00Z under the claimed century inference, year
25 < 50), yet the parser rejects the whole line; the same line with the
10-digit timestamp (`lineBest0`-style) is accepted, so the timestamp is
the only obstacle.  No century inference exists in the code: the only
format tried is `%Y%m%d%H`. -/
theorem C3_counterexample :
    parse_atcf_line lineTs8 = none ∧
    (parse_atcf_line lineBest0).isSome = true := by
  constructor
  · decide
  · decide

/-- C3, amended: field 2 is parsed only with
`datetime.strptime(_, '%Y%m%d%H')`: every valid zero-padded 10-digit
`YYYYMMDDHH` value is accepted and decoded exactly; a line whose
timestamp field fails that format is rejected (no point) and leaves the
rest of the batch unchanged.  8-digit `YYMMDDHH` values receive no
century inference. -/
theorem C3_timestamp (y m d h : ℕ) (st : GroupMap) (line badLine : String)
    (hy1 : 1 ≤ y) (hy2 : y ≤ 9999) (hm1 : 1 ≤ m) (hm2 : m ≤ 12)
    (hd1 : 1 ≤ d) (hd2 : d ≤ daysInMonth y m) (hh : h ≤ 23)
    (hbad : pyStrptimeYmdH (fieldAt badLine 2) = none)
    (hnone : parse_atcf_line line = none) :
    pyStrptimeYmdH (pad4 y ++ pad2 m ++ pad2 d ++ pad2 h) = some ⟨y, m, d, h⟩ ∧
    parse_atcf_line badLine = none ∧
    stepLine st line = st :=
  ⟨pyStrptimeYmdH_valid y m d h hy1 hy2 hm1 hm2 hd1 hd2 hh,
   parse_atcf_line_badTime badLine hbad,
   stepLine_of_parse_none st line hnone⟩

/-- Witness for `C3_timestamp`: 2025-10-06 00Z, and the 8-digit line. -/
theorem C3_timestamp_witness :
    pyStrptimeYmdH (pad4 2025 ++ pad2 10 ++ pad2 6 ++ pad2 0) =
      some ⟨2025, 10, 6, 0⟩ ∧
    parse_atcf_line lineTs8 = none ∧
    stepLine [] lineTs8 = [] :=
  C3_timestamp 2025 10 6 0 [] lineTs8 lineTs8
    (by decide) (by decide) (by decide) (by decide) (by decide) (by decide)
    (by decide) (by decide) (by decide)

/-- C4 counterexample: `lineWindXX` (non-numeric max wind) and
`linePresXX` (non-numeric pressure) differ from the accepted `lineBest0`
only in those fields, yet both are rejected whole — no point with the
field defaulted to 0 is produced. -/
theorem C4_counterexample :
    parse_atcf_line lineWindXX = none ∧
    parse_atcf_line linePresXX = none ∧
    (parse_atcf_line lineBest0).isSome = true := by
  refine ⟨?_, ?_, ?_⟩ <;> decide

/-- C4, amended: a non-numeric max-wind (field 8) or central-pressure
(field 9) field is fatal to the line: `int()` raises and the whole line
is rejected (`None`), instead of defaulting the value to 0. -/
theorem C4_nonnumeric (line line' : String)
    (hw : pyInt (fieldAt line 8) = none) (hp : pyInt (fieldAt line' 9) = none) :
    parse_atcf_line line = none ∧ parse_atcf_line line' = none :=
  ⟨parse_atcf_line_badWind line hw, parse_atcf_line_badPressure line' hp⟩

/-- Witness for `C4_nonnumeric` at the two concrete lines. -/
theorem C4_nonnumeric_witness :
    parse_atcf_line lineWindXX = none ∧ parse_atcf_line linePresXX = none :=
  C4_nonnumeric lineWindXX linePresXX (by decide) (by decide)

/-- C5: the compass coordinate parsing.  For every digit string
`<digits><N|S|E|W>` the latitude parser (negative suffix `'S'`) and the
longitude parser (negative suffix `'W'`) return `digits / 10` with
positive sign for `N`/`E` and negative sign for `S`/`W`, strictly
negative when the digits are nonzero; a string whose remainder after
stripping the final character is not `float`-parsable, and the empty
string, produce no coordinate (the line is rejected). -/
theorem C5_parseCompassCoordinate :
    (∀ ds : List Char, ds ≠ [] → (∀ c ∈ ds, c.isDigit = true) →
      parseCoordField 'S' (String.mk (ds ++ ['N'])) =
        some ((digitsToNat ds : ℚ) / 10) ∧
      parseCoordField 'S' (String.mk (ds ++ ['S'])) =
        some (-((digitsToNat ds : ℚ) / 10)) ∧
      parseCoordField 'W' (String.mk (ds ++ ['E'])) =
        some ((digitsToNat ds : ℚ) / 10) ∧
      parseCoordField 'W' (String.mk (ds ++ ['W'])) =
        some (-((digitsToNat ds : ℚ) / 10)) ∧
      (digitsToNat ds ≠ 0 → -((digitsToNat ds : ℚ) / 10) < 0)) ∧
    (∀ negSuffix : Char, ∀ s : String,
      pyFloat (dropLastStr s) = none → parseCoordField negSuffix s = none) ∧
    (∀ negSuffix : Char, parseCoordField negSuffix "" = none) := by
  refine ⟨?_, ?_, ?_⟩
  · intro ds hne hd
    refine ⟨?_, ?_, ?_, ?_, ?_⟩
    · rw [parseCoordField_digits 'S' 'N' hne hd, if_neg (by decide : ¬('N' = 'S'))]
    · rw [parseCoordField_digits 'S' 'S' hne hd, if_pos rfl]
    · rw [parseCoordField_digits 'W' 'E' hne hd, if_neg (by decide : ¬('E' = 'W'))]
    · rw [parseCoordField_digits 'W' 'W' hne hd, if_pos rfl]
    · intro hz
      have hpos : (0 : ℚ) < (digitsToNat ds : ℚ) := by
        exact_mod_cast Nat.pos_of_ne_zero hz
      have : (0 : ℚ) < (digitsToNat ds : ℚ) / 10 := by positivity
      linarith
  · intro negSuffix s h
    unfold parseCoordField
    rw [h]
  · intro negSuffix
    unfold parseCoordField
    rfl

/-- Witness for `C5_parseCompassCoordinate` at `"150N"`, `"150S"`,
`"1250E"`, `"1250W"`, `"1A5N"` and `""`. -/
theorem C5_parseCompassCoordinate_witness :
    parseCoordField 'S' (String.mk (['1', '5', '0'] ++ ['N'])) =
      some ((digitsToNat ['1', '5', '0'] : ℚ) / 10) ∧
    parseCoordField 'S' (String.mk (['1', '5', '0'] ++ ['S'])) =
      some (-((digitsToNat ['1', '5', '0'] : ℚ) / 10)) ∧
    (-((digitsToNat ['1', '5', '0'] : ℚ) / 10) < 0) ∧
    parseCoordField 'S' "1A5N" = none ∧
    parseCoordField 'W' "" = none := by
  have h := C5_parseCompassCoordinate
  have h1 := h.1 ['1', '5', '0'] (by decide) (by decide)
  exact ⟨h1.1, h1.2.1, h1.2.2.2.2 (by decide),
    h.2.1 'S' "1A5N" (by decide), h.2.2 'W'⟩

/-- C6: a line with fewer than 28 comma-separated fields produces no
point, never throws (the parser is a total function into `Option`),
leaves every other line's processing unchanged, and the total stored
point count equals the number of contributing lines (lines that are not
blank/comment, parse successfully and carry a non-negative forecast
period — negative-hour points are stored in neither track). -/
theorem C6_short_line_safety :
    (∀ line : String, (partsOf line).length < 28 → parse_atcf_line line = none) ∧
    (∀ (st : GroupMap) (line : String), parse_atcf_line line = none →
      stepLine st line = st) ∧
    (∀ (pre post : List String) (line : String), (partsOf line).length < 28 →
      parseBulletinLines (pre ++ line :: post) = parseBulletinLines (pre ++ post)) ∧
    (∀ lines : List String,
      storedPointCount (parseBulletinLines lines) = lines.countP contributesLine) := by
  refine ⟨parse_atcf_line_short, stepLine_of_parse_none, ?_, ?_⟩
  · intro pre post line hshort
    have hnone := parse_atcf_line_short line hshort
    unfold parseBulletinLines
    rw [List.foldl_append, List.foldl_append, List.foldl_cons,
      stepLine_of_parse_none _ _ hnone]
  · intro lines
    exact (parseBulletinLines_count lines).2

/-- Witness for `C6_short_line_safety`: the 10-field `lineShort` inserted
before `lineBest0`. -/
theorem C6_short_line_safety_witness :
    parse_atcf_line lineShort = none ∧
    stepLine [] lineShort = [] ∧
    parseBulletinLines ([] ++ lineShort :: [lineBest0]) =
      parseBulletinLines ([] ++ [lineBest0]) := by
  have h := C6_short_line_safety
  exact ⟨h.1 lineShort (by decide), h.2.1 [] lineShort (h.1 lineShort (by decide)),
    h.2.2.1 [] [lineBest0] lineShort (by decide)⟩

/-- C7 counterexample: a single-item feed whose title element is present
but empty (ElementTree gives `.text = None`) while its description
contains the keyword `"警報"`.  The claim demands exactly one retained
WarningItem, but `keyword in title` raises `TypeError` on the `None`
title, the blanket `except` turns it into a 500 error response, and no
warnings list is produced at all (`none`). -/
theorem C7_counterexample :
    get_cwa_warnings
      [{ title := some none, link := none,
         description := some (some "警報"), pubDate := none }] = none ∧
    pyInStr "警報" "警報" = true :=
  ⟨rfl, by decide⟩

/-- C7, amended: on a feed whose items all carry proper strings (not
Python `None`) as their title and description values, the extractor
succeeds and retains an item exactly when its defaulted title or
description contains a keyword of the fixed set, in feed order (the
result is a filter of the stored dicts, its length is the count of
relevant items, and it is a sublist of the per-item dicts); but a feed
need not be handled at all: as soon as the loop reaches an item whose
title element is present but empty, `keyword in title` raises
`TypeError`, the whole request aborts via the blanket `except`, and no
warnings are returned (`none`), whatever came before or after. -/
theorem C7_rss_filter :
    (∀ items : List RssItem, (∀ it ∈ items, goodItem it = true) →
      get_cwa_warnings items =
        some ((items.map itemWarning).filter relevantWarning) ∧
      ((items.map itemWarning).filter relevantWarning).length =
        items.countP (fun it => relevantWarning (itemWarning it)) ∧
      ((items.map itemWarning).filter relevantWarning).Sublist
        (items.map itemWarning)) ∧
    (∀ (pre post : List RssItem) (it : RssItem),
      (∀ x ∈ pre, goodItem x = true) → it.title = some none →
      get_cwa_warnings (pre ++ it :: post) = none) := by
  constructor
  · intro items h
    refine ⟨?_, ?_, List.filter_sublist _⟩
    · rw [get_cwa_warnings, warningsGo_good items [] h]
      simp
    · rw [← List.countP_eq_length_filter, List.countP_map]
      rfl
  · intro pre post it hgood hbad
    exact warningsGo_abort it hbad pre post [] hgood

/-- Witness for C7 at concrete feeds: a two-item clean feed (one item
whose title contains `"警報"`, one with every sub-element missing) is
filtered to the relevant dicts, and a one-item feed whose title element
is empty aborts to `none`. -/
theorem C7_rss_filter_witness :
    (get_cwa_warnings
      [{ title := some (some "颱風警報"), link := some (some "http://example"),
         description := some (some "內容"), pubDate := some (some "2025") },
       { title := none, link := none, description := none, pubDate := none }] =
      some (([({ title := some (some "颱風警報"), link := some (some "http://example"),
                 description := some (some "內容"), pubDate := some (some "2025") } : RssItem),
              { title := none, link := none, description := none, pubDate := none }].map
                itemWarning).filter relevantWarning)) ∧
    get_cwa_warnings ([] ++
      ({ title := some none, link := none,
         description := some (some "地震"), pubDate := none } : RssItem) :: []) = none :=
  ⟨(C7_rss_filter.1
      [{ title := some (some "颱風警報"), link := some (some "http://example"),
         description := some (some "內容"), pubDate := some (some "2025") },
       { title := none, link := none, description := none, pubDate := none }]
      (by decide)).1,
   C7_rss_filter.2 [] []
     { title := some none, link := none,
       description := some (some "地震"), pubDate := none }
     (by simp) rfl⟩

/-- C8: when several cyclones are present, the selected track is the one
with the lexicographically greatest identifier; in particular the
selection function (`max(keys)`, modelled by `maxKey`) picks
`"WP152025"` out of `{"WP142025", "WP152025"}`. -/
theorem C8_select_max :
    (∀ (text : String) (g : TyphoonGroup),
      get_international_typhoon_data text = some g →
      g.id ∈ keysOf (parseBulletinLines (pySplit '\n' (pyStrip text))) ∧
      ∀ k ∈ keysOf (parseBulletinLines (pySplit '\n' (pyStrip text))),
        pyStrLe k g.id = true) ∧
    maxKey ["WP142025", "WP152025"] = some "WP152025" := by
  constructor
  · intro text g h
    unfold get_international_typhoon_data at h
    obtain ⟨k, g0, hmax, hlook, rfl⟩ := selectTyphoon_some h
    have hk := maxKey_spec hmax
    have hid : g0.id = k :=
      (parseBulletinLines_groupOk _ _ (lookupGroup_mem hlook)).1
    have hgid :
        ({ g0 with
            pastTrack := sortPastTrack g0.pastTrack,
            forecastTrack := sortForecastTrack g0.forecastTrack,
            currentPosition := (sortPastTrack g0.pastTrack).getLast? } :
          TyphoonGroup).id = k := hid
    rw [hgid]
    exact hk
  · decide

/-- Witness for `C8_select_max` at the two-cyclone bulletin
(`WP14` and `WP15`): the selected id is a key and dominates `"WP14"`. -/
theorem C8_select_max_witness :
    (TyphoonGroup.id
        ⟨[ptMawar], [], some ptMawar, "MAWAR", "WP15", "JTWC (via NCEP)"⟩) ∈
      keysOf (parseBulletinLines (pySplit '\n' (pyStrip bulletinTwoCyclones))) ∧
    pyStrLe "WP14"
      (TyphoonGroup.id
        ⟨[ptMawar], [], some ptMawar, "MAWAR", "WP15", "JTWC (via NCEP)"⟩) = true :=
  ⟨(C8_select_max.1 bulletinTwoCyclones _ (by decide)).1,
   (C8_select_max.1 bulletinTwoCyclones _ (by decide)).2 "WP14" (by decide)⟩

/-- C9: every parsed point's m/s wind speed is
`round(knots * 0.514444, 1)` (`knotsToMps_spec`, ordinary rational
arithmetic; `knotsToMps` is the code-side fraction form), and the
conversion maps 0 to 0.0 and 100 to 51.4. -/
theorem C9_knots_to_mps :
    (∀ (line : String) (p : ParsedPoint), parse_atcf_line line = some p →
      p.windSpeed_ms = knotsToMps_spec p.windSpeed_knots) ∧
    knotsToMps_spec 0 = 0 ∧
    knotsToMps_spec 100 = 51.4 := by
  refine ⟨?_, ?_, ?_⟩
  · intro line p h
    rw [parse_atcf_line_windSpeed_ms line p h, knotsToMps_eq_spec]
  · rw [← knotsToMps_eq_spec]
    decide
  · rw [← knotsToMps_eq_spec]
    have h1 : knotsToMps 100 = Rat.divInt 514 10 := by decide
    rw [h1, Rat.divInt_eq_div]
    norm_num

/-- Witness for `C9_knots_to_mps` at the `BEST` line (65 kt → 33.4 m/s). -/
theorem C9_knots_to_mps_witness :
    (ParsedPoint.windSpeed_ms
      ⟨"2025-07-15T12:00:00Z", 15, 125, 65, Rat.divInt 334 10, 985, 0,
        "MAWAR", "WP15"⟩) =
      knotsToMps_spec (ParsedPoint.windSpeed_knots
        ⟨"2025-07-15T12:00:00Z", 15, 125, 65, Rat.divInt 334 10, 985, 0,
          "MAWAR", "WP15"⟩) :=
  C9_knots_to_mps.1 lineBest0 _ (by decide)

/-- C10: every `forecastTrack` point of the returned typhoon has a
strictly positive forecast period; every `pastTrack` point comes from a
line parsed with forecast period 0 (hence `currentPosition`, the last
sorted past point, does too); and a parsed point with a negative
forecast period changes neither track nor the current position at any
key — it is silently discarded. -/
theorem C10_negative_hours :
    (∀ (text : String) (g : TyphoonGroup),
      get_international_typhoon_data text = some g →
      (∀ q ∈ g.forecastTrack, 0 < q.forecastPeriod_hours) ∧
      (∀ q ∈ g.pastTrack, ∃ l ∈ pySplit '\n' (pyStrip text), ∃ p,
        parse_atcf_line l = some p ∧ p.forecastPeriod_hours = 0 ∧
        q = toTrackPoint p)) ∧
    (∀ (st : GroupMap) (line : String) (p : ParsedPoint),
      parse_atcf_line line = some p → p.forecastPeriod_hours < 0 →
      ∀ k : String,
      pastTrackAt k (stepLine st line) = pastTrackAt k st ∧
      forecastTrackAt k (stepLine st line) = forecastTrackAt k st ∧
      currentPositionAt k (stepLine st line) = currentPositionAt k st) := by
  constructor
  · intro text g h
    unfold get_international_typhoon_data at h
    obtain ⟨k, g0, hmax, hlook, rfl⟩ := selectTyphoon_some h
    have hok := parseBulletinLines_groupOk _ _ (lookupGroup_mem hlook)
    constructor
    · intro q hq
      have hq0 : q ∈ g0.forecastTrack := (sortForecastTrack_perm _).mem_iff.1 hq
      exact hok.2.1 q hq0
    · intro q hq
      have hq0 : q ∈ g0.pastTrack := (sortPastTrack_perm _).mem_iff.1 hq
      exact hok.2.2 q hq0
  · intro st line p hp hneg k
    by_cases hskip : skipLine line = true
    · rw [stepLine_of_skip _ _ hskip]
      exact ⟨rfl, rfl, rfl⟩
    · exact stepLine_neg_noop (by simpa using hskip) hp hneg k

/-- Witness for `C10_negative_hours`: the positive-hours part at the mixed
bulletin's forecast point, and the negative-hours part at `lineNeg6`. -/
theorem C10_negative_hours_witness :
    (0 : ℤ) < fptMawar12.forecastPeriod_hours ∧
    pastTrackAt "WP15" (stepLine [] lineNeg6) = pastTrackAt "WP15" [] ∧
    forecastTrackAt "WP15" (stepLine [] lineNeg6) = forecastTrackAt "WP15" [] ∧
    currentPositionAt "WP15" (stepLine [] lineNeg6) = currentPositionAt "WP15" [] :=
  ⟨(C10_negative_hours.1 bulletinMixed
      ⟨[ptMawar], [fptMawar12], some ptMawar, "MAWAR", "WP15", "JTWC (via NCEP)"⟩
      (by decide)).1 fptMawar12 (by decide),
   C10_negative_hours.2 [] lineNeg6 pNeg6 (by decide) (by decide) "WP15"⟩
